import Mathlib

/-!
Shallow embedding of the SearXNGtoN8N MCP server
(src/mcp_http_sse_server.py, src/mcp_stdio_server.py, src/config.py).

JSON values are modelled by the inductive `Json` below; Python dicts are
association lists (Python dict keys are unique, so first-match lookup agrees
with Python semantics).  Python integers are `Int`.  The JSON documents this
server builds and exchanges carry no floats, so `Json` has no float
constructor.  Network and HTML-conversion effects (aiohttp, BeautifulSoup,
html2text) are external collaborators and are supplied through an explicit
environment (`Env`).
-/

/-- JSON values (no float constructor: the server's own messages are
integer/string/structured only). -/
inductive Json where
  | null : Json
  | bool (b : Bool) : Json
  | num (n : Int) : Json
  | str (s : String) : Json
  | arr (xs : List Json) : Json
  | obj (kvs : List (String × Json)) : Json

namespace Json

/-- Python `==` between a JSON value and a string literal (true only when the
value is that very string). -/
def isStr (j : Json) (s : String) : Bool :=
  match j with
  | .str t => t == s
  | _ => false

/-- Python `is None` test. -/
def isNull : Json → Bool
  | .null => true
  | _ => false

/-- `d.get(k)` on a Python dict, returning `None` when the key is absent.
On non-dict values Python would raise; claims never exercise that path and
callers guard it (see `execute_tool`). -/
def get (j : Json) (k : String) : Option Json :=
  match j with
  | .obj kvs => kvs.lookup k
  | _ => none

/-- `d.get(k, default)`. -/
def getD (j : Json) (k : String) (d : Json) : Json :=
  (j.get k).getD d

/-- Python truthiness of a JSON value. -/
def truthy : Json → Bool
  | .null => false
  | .bool b => b
  | .num n => n != 0
  | .str s => s != ""
  | .arr xs => !xs.isEmpty
  | .obj kvs => !kvs.isEmpty

/-- Elements of a JSON array; `[]` for non-arrays (Python would raise on
iterating a non-iterable; no modelled call site reaches that). -/
def elems : Json → List Json
  | .arr xs => xs
  | _ => []

end Json

/-- Left brace character (written via its code point). -/
def lbrace : Char := Char.ofNat 123

/-- Right brace character (written via its code point). -/
def rbrace : Char := Char.ofNat 125

/-- Double-quote character. -/
def dquote : Char := Char.ofNat 34

/-- Backslash character. -/
def bslash : Char := Char.ofNat 92

mutual

/-- Python `repr` of a JSON value, as used by `str()` on containers.
String escaping inside `repr` is simplified (no claim depends on it). -/
def pyRepr : Json → String
  | .null => "None"
  | .bool true => "True"
  | .bool false => "False"
  | .num n => toString n
  | .str s => "\x27" ++ s ++ "\x27"
  | .arr xs => "[" ++ pyReprList xs ++ "]"
  | .obj kvs =>
      String.singleton lbrace ++ pyReprMembers kvs ++ String.singleton rbrace

/-- Comma-separated `repr` of list elements. -/
def pyReprList : List Json → String
  | [] => ""
  | [x] => pyRepr x
  | x :: y :: xs => pyRepr x ++ ", " ++ pyReprList (y :: xs)

/-- Comma-separated `repr` of dict members. -/
def pyReprMembers : List (String × Json) → String
  | [] => ""
  | [(k, v)] => "\x27" ++ k ++ "\x27: " ++ pyRepr v
  | (k, v) :: m :: kvs =>
      "\x27" ++ k ++ "\x27: " ++ pyRepr v ++ ", " ++ pyReprMembers (m :: kvs)

end

/-- Python `str()` of a JSON value, as used by f-string interpolation. -/
def pyStr : Json → String
  | .str s => s
  | v => pyRepr v

/-- Python `sub in s` substring test on strings. -/
def strContains (s sub : String) : Prop :=
  sub.data <:+: s.data

instance (s sub : String) : Decidable (strContains s sub) := by
  unfold strContains; infer_instance

/-- Python list slice `xs[:m]` for an `int` bound `m` (negative bounds count
from the end, clamped at zero). -/
def pyTakeList (m : Int) (xs : List Json) : List Json :=
  if 0 ≤ m then xs.take m.toNat
  else xs.take (xs.length - (-m).toNat)

/-- Python string slice `s[:m]` (same index convention as list slices). -/
def pyTakeStr (m : Int) (s : String) : String :=
  if 0 ≤ m then ⟨s.data.take m.toNat⟩
  else ⟨s.data.take (s.data.length - (-m).toNat)⟩

/-- Python type name, used to render the message of the `AttributeError`
raised by `.get` on a non-dict (caught by `execute_tool`). -/
def pyTypeName : Json → String
  | .null => "NoneType"
  | .bool _ => "bool"
  | .num _ => "int"
  | .str _ => "str"
  | .arr _ => "list"
  | .obj _ => "dict"

/-- Message of the `AttributeError` raised by `args.get` when `arguments`
is not a dict; `execute_tool` converts it into an error envelope. -/
def pyNoAttrGet (j : Json) : String :=
  "\x27" ++ pyTypeName j ++ "\x27 object has no attribute \x27get\x27"

/-- The decimal digit character for `d < 10`. -/
def digitChar : Nat → Char
  | 0 => '0' | 1 => '1' | 2 => '2' | 3 => '3' | 4 => '4'
  | 5 => '5' | 6 => '6' | 7 => '7' | 8 => '8' | _ => '9'

/-- Decimal digits of a natural number, most significant first
(Python `str(n)` for `n ≥ 0`). -/
def natToDigits (n : Nat) : List Char :=
  if _h : n < 10 then [digitChar n]
  else natToDigits (n / 10) ++ [digitChar (n % 10)]
  decreasing_by
    exact Nat.div_lt_self (by omega) (by omega)

/-- Python `str()` of an `int`. -/
def intToDigits (n : Int) : List Char :=
  if n < 0 then '-' :: natToDigits (-n).toNat else natToDigits n.toNat

/-- Thousands-grouped decimal rendering, Python format spec `{:,}`
restricted to the JSON values this server can meet (ints; other values
would raise in Python, a path no claim reaches). -/
def commaGroup (cs : List Char) : List Char :=
  if h : cs.length ≤ 3 then cs
  else commaGroup (cs.take (cs.length - 3)) ++ ',' :: cs.drop (cs.length - 3)
  termination_by cs.length
  decreasing_by
    simp only [List.length_take]
    omega

/-- Python `format(v, ",")` on the `number_of_results` value. -/
def fmtComma : Json → String
  | .num n => if n < 0 then ⟨'-' :: commaGroup (natToDigits (-n).toNat)⟩
              else ⟨commaGroup (natToDigits n.toNat)⟩
  | v => pyStr v

/-- src/config.py: `Config` with the defaults taken when the corresponding
environment variables are unset. -/
structure Config where
  SEARXNG_URL : String := "http://searxng:8080"
  HOST : String := "0.0.0.0"
  PORT : Int := 8091
  MCP_SERVER_NAME : String := "searxng-mcp-server"
  MCP_SERVER_VERSION : String := "1.0.0"
  LOG_LEVEL : String := "INFO"
  DEFAULT_MAX_RESULTS : Int := 10
  REQUEST_TIMEOUT : Int := 30

/-- The default configuration (no environment overrides). -/
def defaultConfig : Config := {}

/-- Outcome of the `GET url` performed by `_fetch_url`: a response
(status, Content-Type header value, decoded text body), a timeout, or any
other exception with its message. -/
inductive FetchOutcome where
  | resp (status : Int) (contentType : String) (body : String)
  | timeout
  | exc (msg : String)

/-- External collaborators: the SearXNG backend (as seen through
`_searxng_search`, i.e. the dict that method returns), the page-fetch HTTP
layer, and the BeautifulSoup + html2text pipeline (`.error` models an
exception raised while processing the HTML). -/
structure Env where
  searxng : List (String × Json) → Json
  fetch : String → FetchOutcome
  html2md : String → Except String String

/-- src/mcp_http_sse_server.py lines 500-509: `_error_response`. -/
def errorResponse (message : String) : Json :=
  .obj [("content", .arr [.obj [("type", .str "text"),
                                ("text", .str ("Erro: " ++ message))]]),
        ("isError", .bool true)]

/-- The `{"content": [{"type": "text", "text": ...}], "isError": false}`
success envelope every tool produces. -/
def textEnvelope (text : String) : Json :=
  .obj [("content", .arr [.obj [("type", .str "text"),
                                ("text", .str text)]]),
        ("isError", .bool false)]

/-- src/mcp_http_sse_server.py lines 246-287: `_fetch_url`. -/
def fetchUrl (env : Env) (url : String) (maxLength : Int) : String :=
  match env.fetch url with
  | .timeout => "Timeout ao acessar a URL"
  | .exc e => "Erro ao acessar URL: " ++ e
  | .resp status contentType body =>
    if status ≠ 200 then
      "Erro ao acessar URL: status " ++ toString status
    else if ¬ strContains contentType "text/html" ∧
            ¬ strContains contentType "text/plain" then
      "Tipo de conteúdo não suportado: " ++ contentType
    else
      match env.html2md body with
      | .error e => "Erro ao processar HTML: " ++ e
      | .ok markdown =>
        let markdown :=
          if (markdown.data.length : Int) > maxLength then
            pyTakeStr maxLength markdown ++ "\n\n... (conteúdo truncado)"
          else markdown
        markdown.trim

/-- `args.get('max_results', Config.DEFAULT_MAX_RESULTS)` /
`args.get('max_length', 20000)`: integer argument with an integer default.
A non-integer value would only raise later, at the slice, a path no modelled
claim reaches; it is mapped to the default here. -/
def intArg (kvs : List (String × Json)) (k : String) (d : Int) : Int :=
  match kvs.lookup k with
  | some (.num n) => n
  | _ => d

/-- src/mcp_http_sse_server.py lines 316-330: the backend query parameter
set built by `_tool_web_search` (dict insertion order preserved). -/
def webSearchParams (kvs : List (String × Json)) : List (String × Json) :=
  [("q", (kvs.lookup "query").getD (.str ""))]
  ++ [("categories",
        if ((kvs.lookup "categories").getD .null).truthy then
          (kvs.lookup "categories").getD .null
        else .str "general")]
  ++ (if ((kvs.lookup "engines").getD .null).truthy then
        [("engines", (kvs.lookup "engines").getD .null)] else [])
  ++ (if ((kvs.lookup "language").getD .null).truthy then
        [("language", (kvs.lookup "language").getD .null)] else [])
  ++ (if ((kvs.lookup "time_range").getD .null).truthy then
        [("time_range", (kvs.lookup "time_range").getD .null)] else [])
  ++ (if ((kvs.lookup "pageno").getD .null).truthy then
        [("pageno", (kvs.lookup "pageno").getD .null)] else [])
  ++ (if ((kvs.lookup "safesearch").getD .null).isNull then []
      else [("safesearch", (kvs.lookup "safesearch").getD .null)])

/-- src/mcp_http_sse_server.py lines 345-354: the backend query parameter
set built by `_tool_news_search` (`categories` hard-set to `"news"`). -/
def newsSearchParams (kvs : List (String × Json)) : List (String × Json) :=
  [("q", (kvs.lookup "query").getD (.str "")), ("categories", .str "news")]
  ++ (if ((kvs.lookup "language").getD .null).truthy then
        [("language", (kvs.lookup "language").getD .null)] else [])
  ++ (if ((kvs.lookup "time_range").getD .null).truthy then
        [("time_range", (kvs.lookup "time_range").getD .null)] else [])
  ++ (if ((kvs.lookup "pageno").getD .null).truthy then
        [("pageno", (kvs.lookup "pageno").getD .null)] else [])

/-- src/mcp_http_sse_server.py lines 369-380: the backend query parameter
set built by `_tool_images_search` (`categories` hard-set to `"images"`). -/
def imagesSearchParams (kvs : List (String × Json)) : List (String × Json) :=
  [("q", (kvs.lookup "query").getD (.str "")), ("categories", .str "images")]
  ++ (if ((kvs.lookup "engines").getD .null).truthy then
        [("engines", (kvs.lookup "engines").getD .null)] else [])
  ++ (if ((kvs.lookup "language").getD .null).truthy then
        [("language", (kvs.lookup "language").getD .null)] else [])
  ++ (if ((kvs.lookup "safesearch").getD .null).isNull then []
      else [("safesearch", (kvs.lookup "safesearch").getD .null)])
  ++ (if ((kvs.lookup "pageno").getD .null).truthy then
        [("pageno", (kvs.lookup "pageno").getD .null)] else [])

/-- src/mcp_http_sse_server.py lines 433-449: the lines the search formatter
emits for one enumerated result (`i` counts from 1). -/
def searchResultBlock (i : Nat) (r : Json) : List String :=
  let title := pyStr (r.getD "title" (.str "Sem título"))
  let url := pyStr (r.getD "url" (.str ""))
  let snippet := r.getD "content" (.str "")
  let engines := String.intercalate ", " ((r.getD "engines" (.arr [])).elems.map pyStr)
  let published := r.getD "publishedDate" (.str "")
  let meta := (if engines ≠ "" then ["Fontes: " ++ engines] else [])
              ++ (if published.truthy then ["Data: " ++ pyStr published] else [])
  ["### " ++ toString i ++ ". [" ++ title ++ "](" ++ url ++ ")\n"]
  ++ (if snippet.truthy then [pyStr snippet ++ "\n"] else [])
  ++ (if meta ≠ [] then ["*" ++ String.intercalate " | " meta ++ "*\n"] else [])

/-- The `results` list the search formatter enumerates: the backend's
`results` entry truncated by the `[:max_results]` slice
(src/mcp_http_sse_server.py line 412). -/
def searchTaken (data : Json) (maxResults : Int) : List Json :=
  pyTakeList maxResults (data.getD "results" (.arr [])).elems

/-- Lines 417-421: heading plus the optional approximate-count line (the only
place `number_of_results` is reported). -/
def searchHeaderLines (data : Json) (query : String) (isNews : Bool) : List String :=
  let total := data.getD "number_of_results" (.num 0)
  let tipo := if isNews then "notícias" else "web"
  ["## Resultados de busca (" ++ tipo ++ "): \"" ++ query ++ "\"\n"]
  ++ (if total.truthy then
        ["*Aproximadamente " ++ fmtComma total ++ " resultados encontrados*\n"]
      else [])

/-- Lines 424-427: the optional direct-answers block. -/
def searchAnswerLines (data : Json) : List String :=
  let answers := data.getD "answers" (.arr [])
  if answers.truthy then
    "### Respostas diretas\n" :: answers.elems.map (fun a => "> " ++ pyStr a ++ "\n")
  else []

/-- Lines 430-449: the per-result section (placeholder line when the
truncated list is empty). -/
def searchResultLines (taken : List Json) : List String :=
  if taken.isEmpty then ["Nenhum resultado encontrado.\n"]
  else (List.enumFrom 1 taken).flatMap (fun p => searchResultBlock p.1 p.2)

/-- Lines 452-455: the optional related-suggestions block. -/
def searchSuggestionLines (data : Json) : List String :=
  let suggestions := data.getD "suggestions" (.arr [])
  if suggestions.truthy then
    "\n### Sugestões relacionadas\n" :: suggestions.elems.map (fun s => "- " ++ pyStr s)
  else []

/-- src/mcp_http_sse_server.py lines 411-465: `_format_search_results`. -/
def format_search_results (data : Json) (maxResults : Int) (query : String)
    (isNews : Bool) : Json :=
  textEnvelope (String.intercalate "\n"
    (searchHeaderLines data query isNews
     ++ searchAnswerLines data
     ++ searchResultLines (searchTaken data maxResults)
     ++ searchSuggestionLines data))

/-- src/mcp_http_sse_server.py lines 475-488: the lines the image formatter
emits for one enumerated result. -/
def imageResultBlock (i : Nat) (r : Json) : List String :=
  let title := pyStr (r.getD "title" (.str "Sem título"))
  let imgUrl := r.getD "img_src" (r.getD "url" (.str ""))
  -- `thumb` (line 478) is assigned in the source but never used.
  let source := r.getD "source" (r.getD "url" (.str ""))
  let engines := String.intercalate ", " ((r.getD "engines" (.arr [])).elems.map pyStr)
  ["### " ++ toString i ++ ". " ++ title ++ "\n"]
  ++ (if imgUrl.truthy then ["![" ++ title ++ "](" ++ pyStr imgUrl ++ ")\n"] else [])
  ++ (if source.truthy then ["Fonte: " ++ pyStr source ++ "\n"] else [])
  ++ (if engines ≠ "" then ["*Engine: " ++ engines ++ "*\n"] else [])

/-- Line 468: the truncated `results` list the image formatter enumerates. -/
def imagesTaken (data : Json) (maxResults : Int) : List Json :=
  pyTakeList maxResults (data.getD "results" (.arr [])).elems

/-- Lines 472-488 of the image formatter. -/
def imageResultLines (taken : List Json) : List String :=
  if taken.isEmpty then ["Nenhuma imagem encontrada.\n"]
  else (List.enumFrom 1 taken).flatMap (fun p => imageResultBlock p.1 p.2)

/-- src/mcp_http_sse_server.py lines 467-498: `_format_image_results`. -/
def format_image_results (data : Json) (maxResults : Int) (query : String) : Json :=
  textEnvelope (String.intercalate "\n"
    (("## Resultados de imagens: \"" ++ query ++ "\"\n")
      :: imageResultLines (imagesTaken data maxResults)))

/-- src/mcp_http_sse_server.py lines 311-338: `_tool_web_search`. -/
def tool_web_search (cfg : Config) (env : Env) (args : Json) : Json :=
  match args with
  | .obj kvs =>
    let query := (kvs.lookup "query").getD (.str "")
    if ¬ query.truthy then errorResponse "Parâmetro \x27query\x27 é obrigatório"
    else
      let maxResults := intArg kvs "max_results" cfg.DEFAULT_MAX_RESULTS
      let data := env.searxng (webSearchParams kvs)
      match data.get "error" with
      | some e => errorResponse (pyStr e)
      | none => format_search_results data maxResults (pyStr query) false
  | other => errorResponse (pyNoAttrGet other)

/-- src/mcp_http_sse_server.py lines 340-362: `_tool_news_search`. -/
def tool_news_search (cfg : Config) (env : Env) (args : Json) : Json :=
  match args with
  | .obj kvs =>
    let query := (kvs.lookup "query").getD (.str "")
    if ¬ query.truthy then errorResponse "Parâmetro \x27query\x27 é obrigatório"
    else
      let maxResults := intArg kvs "max_results" cfg.DEFAULT_MAX_RESULTS
      let data := env.searxng (newsSearchParams kvs)
      match data.get "error" with
      | some e => errorResponse (pyStr e)
      | none => format_search_results data maxResults (pyStr query) true
  | other => errorResponse (pyNoAttrGet other)

/-- src/mcp_http_sse_server.py lines 364-388: `_tool_images_search`. -/
def tool_images_search (cfg : Config) (env : Env) (args : Json) : Json :=
  match args with
  | .obj kvs =>
    let query := (kvs.lookup "query").getD (.str "")
    if ¬ query.truthy then errorResponse "Parâmetro \x27query\x27 é obrigatório"
    else
      let maxResults := intArg kvs "max_results" cfg.DEFAULT_MAX_RESULTS
      let data := env.searxng (imagesSearchParams kvs)
      match data.get "error" with
      | some e => errorResponse (pyStr e)
      | none => format_image_results data maxResults (pyStr query)
  | other => errorResponse (pyNoAttrGet other)

/-- src/mcp_http_sse_server.py lines 390-406: `_tool_fetch_page`. -/
def tool_fetch_page (env : Env) (args : Json) : Json :=
  match args with
  | .obj kvs =>
    let url := (kvs.lookup "url").getD (.str "")
    if ¬ url.truthy then errorResponse "Parâmetro \x27url\x27 é obrigatório"
    else
      let maxLength := intArg kvs "max_length" 20000
      let content := fetchUrl env (pyStr url) maxLength
      textEnvelope ("## Conteúdo de: " ++ pyStr url ++ "\n\n" ++ content)
  | other => errorResponse (pyNoAttrGet other)

/-- src/mcp_http_sse_server.py lines 292-309: `execute_tool` (the broad
`except` turns any handler exception into an error envelope; the handlers
above are total, the only modelled exception being `args.get` on a
non-dict, handled inside each handler). -/
def execute_tool (cfg : Config) (env : Env) (name : Json) (arguments : Json) : Json :=
  if name.isStr "web_search" then tool_web_search cfg env arguments
  else if name.isStr "news_search" then tool_news_search cfg env arguments
  else if name.isStr "images_search" then tool_images_search cfg env arguments
  else if name.isStr "fetch_page_content" then tool_fetch_page env arguments
  else errorResponse ("Tool desconhecida: " ++ pyStr name)

/-- Helper for schema properties: a string-typed property with a
description. -/
def schemaStr (desc : String) : Json :=
  .obj [("type", .str "string"), ("description", .str desc)]

/-- Helper for schema properties: a string-typed property with a
description and a default. -/
def schemaStrD (desc : String) (d : String) : Json :=
  .obj [("type", .str "string"), ("description", .str desc), ("default", .str d)]

/-- Helper for schema properties: an integer-typed property with a
description and a default. -/
def schemaIntD (desc : String) (d : Int) : Json :=
  .obj [("type", .str "integer"), ("description", .str desc), ("default", .num d)]

/-- The `time_range` enum property shared by the search tools. -/
def schemaTimeRange : Json :=
  .obj [("type", .str "string"),
        ("description", .str "Filtro temporal: day, month, year. Opcional."),
        ("enum", .arr [.str "day", .str "month", .str "year"])]

/-- src/mcp_http_sse_server.py lines 34-191: the static `TOOLS` catalog. -/
def TOOLS : List Json :=
  [ .obj [("name", .str "web_search"),
      ("description", .str ("Realiza uma busca geral na web usando SearXNG (metabuscador que agrega "
        ++ "resultados de Google, Bing, DuckDuckGo, Brave, etc). "
        ++ "Retorna títulos, URLs, snippets e engines de origem.")),
      ("inputSchema", .obj [("type", .str "object"),
        ("properties", .obj [
          ("query", schemaStr "Termo de busca"),
          ("categories", schemaStrD "Categorias separadas por vírgula (ex: general, it, science, social media). Padrão: general" "general"),
          ("engines", schemaStr "Engines específicas separadas por vírgula (ex: google,bing,duckduckgo). Opcional."),
          ("language", schemaStrD "Código do idioma (ex: pt-BR, en, es). Padrão: pt-BR" "pt-BR"),
          ("time_range", schemaTimeRange),
          ("pageno", schemaIntD "Número da página de resultados. Padrão: 1" 1),
          ("safesearch", .obj [("type", .str "integer"),
            ("description", .str "Nível de SafeSearch: 0 (desligado), 1 (moderado), 2 (estrito). Padrão: 0"),
            ("enum", .arr [.num 0, .num 1, .num 2]), ("default", .num 0)]),
          ("max_results", schemaIntD "Número máximo de resultados a retornar. Padrão: 10" 10)]),
        ("required", .arr [.str "query"])])],
    .obj [("name", .str "news_search"),
      ("description", .str ("Busca notícias recentes na web via SearXNG. "
        ++ "Atalho para busca na categoria \x27news\x27. "
        ++ "Retorna títulos, URLs, datas e fontes.")),
      ("inputSchema", .obj [("type", .str "object"),
        ("properties", .obj [
          ("query", schemaStr "Termo de busca para notícias"),
          ("language", schemaStrD "Código do idioma (ex: pt-BR, en). Padrão: pt-BR" "pt-BR"),
          ("time_range", schemaTimeRange),
          ("pageno", schemaIntD "Página de resultados. Padrão: 1" 1),
          ("max_results", schemaIntD "Máximo de resultados. Padrão: 10" 10)]),
        ("required", .arr [.str "query"])])],
    .obj [("name", .str "images_search"),
      ("description", .str ("Busca imagens na web via SearXNG. "
        ++ "Retorna URLs das imagens, thumbnails, títulos e fontes.")),
      ("inputSchema", .obj [("type", .str "object"),
        ("properties", .obj [
          ("query", schemaStr "Termo de busca para imagens"),
          ("engines", schemaStr "Engines específicas (ex: google images, bing images). Opcional."),
          ("language", schemaStrD "Código do idioma. Padrão: pt-BR" "pt-BR"),
          ("safesearch", .obj [("type", .str "integer"),
            ("description", .str "SafeSearch: 0, 1, 2. Padrão: 1"),
            ("enum", .arr [.num 0, .num 1, .num 2]), ("default", .num 1)]),
          ("pageno", schemaIntD "Página de resultados. Padrão: 1" 1),
          ("max_results", schemaIntD "Máximo de resultados. Padrão: 10" 10)]),
        ("required", .arr [.str "query"])])],
    .obj [("name", .str "fetch_page_content"),
      ("description", .str ("Busca o conteúdo de uma URL e retorna como texto Markdown limpo. "
        ++ "Útil para ler o conteúdo de páginas encontradas nas buscas. "
        ++ "Remove scripts, estilos e elementos desnecessários.")),
      ("inputSchema", .obj [("type", .str "object"),
        ("properties", .obj [
          ("url", schemaStr "URL da página a ser lida"),
          ("max_length", schemaIntD "Tamanho máximo do conteúdo em caracteres. Padrão: 20000" 20000)]),
        ("required", .arr [.str "url"])])]]

/-- src/mcp_http_sse_server.py lines 514-523: the initialize handler
(Python name handle_mcp_initialize; the `_rpc` suffix is Lean-side only). -/
def handle_mcp_initialize_rpc (cfg : Config) (requestId : Json) : Json :=
  .obj [("jsonrpc", .str "2.0"), ("id", requestId),
        ("result", .obj [
          ("protocolVersion", .str "2024-11-05"),
          ("serverInfo", .obj [("name", .str cfg.MCP_SERVER_NAME),
                               ("version", .str cfg.MCP_SERVER_VERSION)]),
          ("capabilities", .obj [("tools", .obj [])])])]

/-- src/mcp_http_sse_server.py lines 525-532: `handle_tools_list`. -/
def handle_tools_list (requestId : Json) : Json :=
  .obj [("jsonrpc", .str "2.0"), ("id", requestId),
        ("result", .obj [("tools", .arr TOOLS)])]

/-- src/mcp_http_sse_server.py lines 534-542: `handle_tools_call`. -/
def handle_tools_call (cfg : Config) (env : Env) (requestId : Json)
    (params : Json) : Json :=
  let name := params.getD "name" (.str "")
  let arguments := params.getD "arguments" (.obj [])
  .obj [("jsonrpc", .str "2.0"), ("id", requestId),
        ("result", execute_tool cfg env name arguments)]

/-- src/mcp_http_sse_server.py lines 544-565: `handle_jsonrpc`.  `freshId`
models the `str(uuid.uuid4())` generated when the request carries no `id`. -/
def handle_jsonrpc (cfg : Config) (env : Env) (freshId : String)
    (body : Json) : Json :=
  let method := body.getD "method" (.str "")
  let requestId := body.getD "id" (.str freshId)
  let params := body.getD "params" (.obj [])
  if method.isStr "initialize" then handle_mcp_initialize_rpc cfg requestId
  else if method.isStr "tools/list" then handle_tools_list requestId
  else if method.isStr "tools/call" then handle_tools_call cfg env requestId params
  else if method.isStr "notifications/initialized" then
    .obj [("jsonrpc", .str "2.0"), ("id", requestId), ("result", .obj [])]
  else
    .obj [("jsonrpc", .str "2.0"), ("id", requestId),
          ("error", .obj [("code", .num (-32601)),
                          ("message", .str ("Método não encontrado: " ++ pyStr method))])]

/-- The SSE session registry `self._sse_sessions`: session id → queued
outbound messages (an `asyncio.Queue` is modelled by its list of pending
messages, oldest first). -/
def Registry : Type := List (String × List Json)

/-- Registry lookup (`session_id in self._sse_sessions` /
`self._sse_sessions.get(session_id)`).  A registered session with an empty
queue is `some []`, distinct from an unregistered id (`none`), exactly as a
truthy `asyncio.Queue` object is distinct from `None`. -/
def regLookup (st : Registry) (sid : String) : Option (List Json) :=
  List.lookup sid st

/-- Registry update `self._sse_sessions[sid] = q` (replace or append). -/
def regSet (st : Registry) (sid : String) (q : List Json) : Registry :=
  match st with
  | [] => [(sid, q)]
  | (k, v) :: rest => if k = sid then (sid, q) :: rest else (k, v) :: regSet rest sid q

/-- Registry removal `self._sse_sessions.pop(sid, None)`: afterwards the
key is not present (Python dict keys are unique; dropping every binding of
`sid` models that). -/
def regErase (st : Registry) (sid : String) : Registry :=
  st.filter (fun p => p.1 != sid)

/-- The HTTP 400 body handle_messages returns for an unknown/expired
session id (src/mcp_http_sse_server.py lines 655-658). -/
def sessionErrorJson : Json :=
  .obj [("error", .str "Sessão SSE não encontrada. Conecte primeiro em GET /sse")]

/-- The HTTP 202 body handle_messages returns after accepting a
submission (line 674). -/
def acceptedJson : Json :=
  .obj [("status", .str "accepted")]

/-- Second half of `handle_messages` (lines 669-674): re-fetch the queue
after the `await` on the dispatcher and enqueue only if the session is
still registered (`if queue:` — an `asyncio.Queue` object is always
truthy, so the test is exactly "still registered"). -/
def handleMessagesEnqueue (st : Registry) (sid : String) (response : Json) :
    (Int × Json) × Registry :=
  match regLookup st sid with
  | some q => ((202, acceptedJson), regSet st sid (q ++ [response]))
  | none => ((202, acceptedJson), st)

/-- src/mcp_http_sse_server.py lines 651-674: `handle_messages`, with the
cooperative-scheduling point made explicit: `stAtEntry` is the registry when
the session check runs, `stAtEnqueue` the registry after the dispatcher's
`await` completes (the SSE loop may deregister the session in between). -/
def handle_messages (cfg : Config) (env : Env) (stAtEntry stAtEnqueue : Registry)
    (sid : String) (body : Json) (freshId : String) : (Int × Json) × Registry :=
  if (sid == "") || (regLookup stAtEntry sid).isNone then
    ((400, sessionErrorJson), stAtEntry)
  else
    handleMessagesEnqueue stAtEnqueue sid (handle_jsonrpc cfg env freshId body)

/-- `handle_messages` when nothing intervenes between check and enqueue. -/
def handle_messages_atomic (cfg : Config) (env : Env) (st : Registry)
    (sid : String) (body : Json) (freshId : String) : (Int × Json) × Registry :=
  handle_messages cfg env st st sid body freshId

/-- Registry-affecting events of the SSE multiplexer: a new `GET /sse`
connection registering a fresh id (lines 612-614), the unconditional
`finally` deregistration when a delivery loop exits for any reason — return,
peer disconnect, cancellation or exception (lines 644-647) — and a
`POST /messages` submission. -/
inductive SseEvent where
  | connect (sid : String)
  | cleanup (sid : String)
  | post (sid : String) (body : Json) (freshId : String)

/-- Effect of one event on the session registry. -/
def sseStep (cfg : Config) (env : Env) (st : Registry) : SseEvent → Registry
  | .connect sid => regSet st sid []
  | .cleanup sid => regErase st sid
  | .post sid body freshId => (handle_messages_atomic cfg env st sid body freshId).2

/-- Whitespace for Python `str.strip()` (the characters that can occur in
this protocol's header lines). -/
def isPyWs (c : Char) : Bool :=
  c = ' ' || c = '\t' || c = '\n' || c = '\r' || c = Char.ofNat 11 || c = Char.ofNat 12

/-- Python `str.strip()` over characters. -/
def pyStrip (cs : List Char) : List Char :=
  ((cs.dropWhile isPyWs).reverse.dropWhile isPyWs).reverse

/-- `reader.readline()`: the next line including its newline, plus the rest
of the stream; on an exhausted stream returns the empty line (EOF). -/
def readline : List Char → List Char × List Char
  | [] => ([], [])
  | c :: cs =>
    if c = '\n' then ([c], cs)
    else
      let p := readline cs
      (c :: p.1, p.2)

/-- Header dict assignment `headers[key] = value` (replace or append). -/
def hdrSet (hs : List (List Char × List Char)) (k v : List Char) :
    List (List Char × List Char) :=
  match hs with
  | [] => [(k, v)]
  | (k0, v0) :: rest => if k0 = k then (k, v) :: rest else (k0, v0) :: hdrSet rest k v

/-- src/mcp_stdio_server.py lines 25-35: the header-reading loop of
`read_message` — read lines until a blank one, collecting
`key.strip().lower() -> value.strip()` for every line containing a colon;
`none` is end of stream before the headers complete. -/
def readHeadersGo (acc : List (List Char × List Char)) (stream : List Char) :
    Option (List (List Char × List Char) × List Char) :=
  if hs : stream = [] then none
  else
    let line := (readline stream).1
    let rest := (readline stream).2
    let sline := pyStrip line
    if sline = [] then some (acc, rest)
    else
      readHeadersGo
        (if ':' ∈ sline then
          hdrSet acc ((pyStrip (sline.takeWhile (· ≠ ':'))).map Char.toLower)
            (pyStrip ((sline.dropWhile (· ≠ ':')).drop 1))
        else acc)
        rest
  termination_by stream.length
  decreasing_by
    have step : ∀ s : List Char, s ≠ [] → (readline s).2.length < s.length := by
      intro s
      induction s with
      | nil => intro h; exact absurd rfl h
      | cons c cs ih =>
        intro _
        by_cases hc : c = '\n'
        · simp [readline, hc]
        · simp only [readline, hc, if_false]
          by_cases h0 : cs = []
          · subst h0; simp [readline]
          · have := ih h0
            simp only [List.length_cons]
            omega
    exact step stream hs

/-- `isDigitChar c` holds on ASCII `0`-`9`. -/
def isDigitChar (c : Char) : Bool :=
  48 ≤ c.toNat && c.toNat ≤ 57

/-- Numeric value of a digit character. -/
def digitVal (c : Char) : Nat := c.toNat - 48

/-- Value of a most-significant-first digit string. -/
def digitsVal (cs : List Char) : Nat :=
  cs.foldl (fun a c => a * 10 + digitVal c) 0

/-- Python `int(str)` on a stripped string: optional minus sign followed by
at least one digit (other inputs raise, modelled as `none`; Python also
accepts `+`, underscores and surrounding whitespace, which this protocol
never produces). -/
def pyIntParse (cs : List Char) : Option Int :=
  let cs := pyStrip cs
  match cs with
  | [] => none
  | c :: tl =>
    if c = '-' then
      if tl ≠ [] ∧ tl.all isDigitChar then some (-(digitsVal tl : Int)) else none
    else if cs.all isDigitChar then some ((digitsVal cs : Int)) else none

/-- `reader.readexactly(n)` counted in UTF-8 bytes over a character
stream: take characters worth exactly `n` bytes (`none` when the stream
ends early or a character boundary does not line up). -/
def takeBytes : Nat → List Char → Option (List Char × List Char)
  | 0, cs => some ([], cs)
  | _ + 1, [] => none
  | n + 1, c :: cs =>
    if c.utf8Size ≤ n + 1 then
      (takeBytes (n + 1 - c.utf8Size) cs).map (fun p => (c :: p.1, p.2))
    else none
  termination_by _ cs => cs.length

/-- UTF-8 byte length of a character sequence (`len(data.encode("utf-8"))`). -/
def utf8LenChars (cs : List Char) : Nat :=
  (cs.map Char.utf8Size).sum

/-- The hexadecimal digit character for `d < 16` (lowercase, as emitted by
Python's json module). -/
def hexDigitChar : Nat → Char
  | 0 => '0' | 1 => '1' | 2 => '2' | 3 => '3' | 4 => '4'
  | 5 => '5' | 6 => '6' | 7 => '7' | 8 => '8' | 9 => '9'
  | 10 => 'a' | 11 => 'b' | 12 => 'c' | 13 => 'd' | 14 => 'e' | _ => 'f'

/-- Escaping of one character by `json.dumps(..., ensure_ascii=False)`:
quote and backslash get a backslash escape, control characters get their
shorthand escape or `\u00XX`, everything else is emitted raw. -/
def escapeChar (c : Char) : List Char :=
  if c = dquote then [bslash, dquote]
  else if c = bslash then [bslash, bslash]
  else if c = '\n' then [bslash, 'n']
  else if c = '\r' then [bslash, 'r']
  else if c = '\t' then [bslash, 't']
  else if c = Char.ofNat 8 then [bslash, 'b']
  else if c = Char.ofNat 12 then [bslash, 'f']
  else if c.toNat < 32 then
    [bslash, 'u', '0', '0', hexDigitChar (c.toNat / 16), hexDigitChar (c.toNat % 16)]
  else [c]

/-- Escaping of a whole string body. -/
def escChars (cs : List Char) : List Char :=
  cs.flatMap escapeChar

mutual

/-- `json.dumps(message, ensure_ascii=False)` with the default separators
`", "` and `": "`, as a character sequence. -/
def jdumpsChars : Json → List Char
  | .null => 'n' :: 'u' :: 'l' :: 'l' :: []
  | .bool true => 't' :: 'r' :: 'u' :: 'e' :: []
  | .bool false => 'f' :: 'a' :: 'l' :: 's' :: 'e' :: []
  | .num n => intToDigits n
  | .str s => dquote :: (escChars s.data ++ [dquote])
  | .arr xs => '[' :: (jdumpsElems xs ++ [']'])
  | .obj kvs => lbrace :: (jdumpsMems kvs ++ [rbrace])

/-- Serialized array elements, `", "`-separated. -/
def jdumpsElems : List Json → List Char
  | [] => []
  | [x] => jdumpsChars x
  | x :: y :: xs => jdumpsChars x ++ ',' :: ' ' :: jdumpsElems (y :: xs)

/-- Serialized object members, `", "`-separated, `": "` after each key. -/
def jdumpsMems : List (String × Json) → List Char
  | [] => []
  | [(k, v)] => dquote :: (escChars k.data ++ dquote :: ':' :: ' ' :: jdumpsChars v)
  | (k, v) :: m :: kvs =>
      dquote :: (escChars k.data ++ dquote :: ':' :: ' ' :: jdumpsChars v)
      ++ ',' :: ' ' :: jdumpsMems (m :: kvs)

end

/-- JSON whitespace skipped between tokens. -/
def isJsonWs (c : Char) : Bool :=
  c = ' ' || c = '\t' || c = '\n' || c = '\r'

/-- Skip JSON whitespace. -/
def skipWs (cs : List Char) : List Char :=
  cs.dropWhile isJsonWs

/-- Value of a hexadecimal digit character. -/
def hexVal (c : Char) : Option Nat :=
  if 48 ≤ c.toNat ∧ c.toNat ≤ 57 then some (c.toNat - 48)
  else if 97 ≤ c.toNat ∧ c.toNat ≤ 102 then some (c.toNat - 87)
  else if 65 ≤ c.toNat ∧ c.toNat ≤ 70 then some (c.toNat - 55)
  else none

/-- JSON string-literal body parser (after the opening quote): returns the
unescaped characters and the input following the closing quote.  `\uXXXX`
escapes are mapped through `Char.ofNat`; surrogate pairs are not combined
(the serializer only emits `\u00XX` for control characters). -/
def parseStrChars (input : List Char) : Option (List Char × List Char) :=
  match input with
  | [] => none
  | c :: cs =>
    if c = dquote then some ([], cs)
    else if c = bslash then
      match cs with
      | [] => none
      | e :: cs2 =>
        if e = dquote then (parseStrChars cs2).map (fun p => (dquote :: p.1, p.2))
        else if e = bslash then (parseStrChars cs2).map (fun p => (bslash :: p.1, p.2))
        else if e = '/' then (parseStrChars cs2).map (fun p => ('/' :: p.1, p.2))
        else if e = 'n' then (parseStrChars cs2).map (fun p => ('\n' :: p.1, p.2))
        else if e = 'r' then (parseStrChars cs2).map (fun p => ('\r' :: p.1, p.2))
        else if e = 't' then (parseStrChars cs2).map (fun p => ('\t' :: p.1, p.2))
        else if e = 'b' then (parseStrChars cs2).map (fun p => (Char.ofNat 8 :: p.1, p.2))
        else if e = 'f' then (parseStrChars cs2).map (fun p => (Char.ofNat 12 :: p.1, p.2))
        else if e = 'u' then
          match cs2 with
          | h1 :: h2 :: h3 :: h4 :: cs3 =>
            match hexVal h1, hexVal h2, hexVal h3, hexVal h4 with
            | some a, some b, some c3, some d =>
              (parseStrChars cs3).map
                (fun p => (Char.ofNat (4096 * a + 256 * b + 16 * c3 + d) :: p.1, p.2))
            | _, _, _, _ => none
          | _ => none
        else none
    else (parseStrChars cs).map (fun p => (c :: p.1, p.2))
  termination_by input.length
  decreasing_by all_goals (simp_wf <;> omega)

mutual

/-- Recursive-descent JSON value parser (fuel-indexed; callers supply fuel
exceeding the document's nesting bound).  Models the subset of `json.loads`
this protocol can meet: floats and exponents are absent from the server's
messages and are rejected. -/
def parseV : Nat → List Char → Option (Json × List Char)
  | 0, _ => none
  | fuel + 1, s =>
    match skipWs s with
    | [] => none
    | c :: cs =>
      if c = dquote then
        (parseStrChars cs).map (fun p => (Json.str ⟨p.1⟩, p.2))
      else if c = '[' then
        match skipWs cs with
        | ']' :: r => some (.arr [], r)
        | t => (parseElems fuel t).map (fun p => (Json.arr p.1, p.2))
      else if c = lbrace then
        match skipWs cs with
        | [] => none
        | c2 :: r =>
          if c2 = rbrace then some (.obj [], r)
          else (parseMems fuel (c2 :: r)).map (fun p => (Json.obj p.1, p.2))
      else if c = 'n' then
        match cs with
        | 'u' :: 'l' :: 'l' :: r => some (.null, r)
        | _ => none
      else if c = 't' then
        match cs with
        | 'r' :: 'u' :: 'e' :: r => some (.bool true, r)
        | _ => none
      else if c = 'f' then
        match cs with
        | 'a' :: 'l' :: 's' :: 'e' :: r => some (.bool false, r)
        | _ => none
      else if c = '-' then
        match cs.span isDigitChar with
        | (ds, r) => if ds = [] then none else some (.num (-(digitsVal ds : Int)), r)
      else if isDigitChar c then
        match cs.span isDigitChar with
        | (ds, r) => some (.num ((digitsVal (c :: ds) : Int)), r)
      else none

/-- Parser for the elements of a non-empty array (after `[`). -/
def parseElems : Nat → List Char → Option (List Json × List Char)
  | 0, _ => none
  | fuel + 1, s =>
    match parseV fuel s with
    | none => none
    | some (v, r) =>
      match skipWs r with
      | [] => none
      | c :: r2 =>
        if c = ',' then (parseElems fuel r2).map (fun p => (v :: p.1, p.2))
        else if c = ']' then some ([v], r2)
        else none

/-- Parser for the members of a non-empty object (after the brace). -/
def parseMems : Nat → List Char → Option (List (String × Json) × List Char)
  | 0, _ => none
  | fuel + 1, s =>
    match skipWs s with
    | [] => none
    | c :: cs =>
      if c = dquote then
        match parseStrChars cs with
        | none => none
        | some (k, r) =>
          match skipWs r with
          | [] => none
          | c2 :: r2 =>
            if c2 = ':' then
              match parseV fuel r2 with
              | none => none
              | some (v, r3) =>
                match skipWs r3 with
                | [] => none
                | c3 :: r4 =>
                  if c3 = ',' then
                    (parseMems fuel r4).map (fun p => ((⟨k⟩, v) :: p.1, p.2))
                  else if c3 = rbrace then some ([(⟨k⟩, v)], r4)
                  else none
            else none
      else none

end

/-- `json.loads` on a complete document: parse one value and require the
remainder to be whitespace (Python raises "Extra data" otherwise, modelled
as `none`). -/
def jloads (cs : List Char) : Option Json :=
  match parseV (cs.length + 1) cs with
  | some (v, rest) => if skipWs rest = [] then some v else none
  | none => none

/-- src/mcp_stdio_server.py lines 23-42: `read_message` over a character
stream (UTF-8 byte counts computed per character).  `none` covers both the
clean end-of-session returns and the raised-exception paths (int() failure,
short read, JSON decode error), all of which end the serve loop. -/
def read_message (stream : List Char) : Option (Json × List Char) :=
  match readHeadersGo [] stream with
  | none => none
  | some (headers, rest) =>
    match
      (match List.lookup ("content-length".data) headers with
       | none => some (0 : Int)
       | some v => pyIntParse v) with
    | none => none
    | some n =>
      if n = 0 then none
      else if n < 0 then none
      else
        match takeBytes n.toNat rest with
        | none => none
        | some (body, rest2) =>
          match jloads body with
          | none => none
          | some m => some (m, rest2)

/-- src/mcp_stdio_server.py lines 45-51: `write_message` — the exact bytes
written for a message: `Content-Length: <len>\r\n\r\n` then the UTF-8
serialized body. -/
def write_message (m : Json) : List Char :=
  "Content-Length: ".data
  ++ natToDigits (utf8LenChars (jdumpsChars m))
  ++ '\r' :: '\n' :: '\r' :: '\n' :: jdumpsChars m

/-- Characters that may legitimately follow a serialized JSON value inside a
document (or end of input); used to state the parser round trip. -/
def delimOk : List Char → Bool
  | [] => true
  | c :: _ => c = ',' || c = ']' || c = rbrace

mutual

/-- Fuel sufficient for `parseV` to parse the serialization of a value. -/
def jB : Json → Nat
  | .arr xs => 1 + jBL xs
  | .obj kvs => 1 + jBM kvs
  | _ => 1

/-- Fuel sufficient for `parseElems` on serialized elements. -/
def jBL : List Json → Nat
  | [] => 0
  | x :: xs => 1 + max (jB x) (jBL xs)

/-- Fuel sufficient for `parseMems` on serialized members. -/
def jBM : List (String × Json) → Nat
  | [] => 0
  | (_, v) :: kvs => 1 + max (jB v) (jBM kvs)

end

/-- A fetch environment whose target answers 200 with an
`application/pdf` body (for the fetch-tool content-type claims). -/
def pdfEnv : Env where
  searxng := fun _ => Json.obj []
  fetch := fun _ => .resp 200 "application/pdf" ""
  html2md := fun s => .ok s

/-- A benign environment for witnesses: the backend returns an empty result
document and fetched pages are plain HTML. -/
def okEnv : Env where
  searxng := fun _ => Json.obj [("results", .arr [])]
  fetch := fun _ => .resp 200 "text/html" "<p>hi</p>"
  html2md := fun s => .ok s

/-- Association-list assignment `d[k] = v` (replace or append). -/
def setA (kvs : List (String × Json)) (k : String) (v : Json) :
    List (String × Json) :=
  match kvs with
  | [] => [(k, v)]
  | (k0, v0) :: rest => if k0 = k then (k, v) :: rest else (k0, v0) :: setA rest k v

/-- `d[k] = v` on a JSON object (identity on other values); used to state
that a formatter ignores a given key. -/
def jsonSetKey (j : Json) (k : String) (v : Json) : Json :=
  match j with
  | .obj kvs => .obj (setA kvs k v)
  | other => other

theorem errorResponse_get_isError (msg : String) :
    (errorResponse msg).get "isError" = some (.bool true) := rfl

theorem errorResponse_get_content (msg : String) :
    (errorResponse msg).get "content"
      = some (.arr [.obj [("type", .str "text"), ("text", .str ("Erro: " ++ msg))]]) := rfl


theorem tool_web_search_missing_query (cfg : Config) (env : Env)
    (kvs : List (String × Json))
    (h : kvs.lookup "query" = none ∨ kvs.lookup "query" = some (Json.str "")) :
    tool_web_search cfg env (.obj kvs)
      = errorResponse "Parâmetro \x27query\x27 é obrigatório" := by
  rcases h with h | h <;> simp [tool_web_search, h, Json.truthy]

theorem tool_news_search_missing_query (cfg : Config) (env : Env)
    (kvs : List (String × Json))
    (h : kvs.lookup "query" = none ∨ kvs.lookup "query" = some (Json.str "")) :
    tool_news_search cfg env (.obj kvs)
      = errorResponse "Parâmetro \x27query\x27 é obrigatório" := by
  rcases h with h | h <;> simp [tool_news_search, h, Json.truthy]

theorem tool_images_search_missing_query (cfg : Config) (env : Env)
    (kvs : List (String × Json))
    (h : kvs.lookup "query" = none ∨ kvs.lookup "query" = some (Json.str "")) :
    tool_images_search cfg env (.obj kvs)
      = errorResponse "Parâmetro \x27query\x27 é obrigatório" := by
  rcases h with h | h <;> simp [tool_images_search, h, Json.truthy]

theorem tool_fetch_page_missing_url (env : Env) (kvs : List (String × Json))
    (h : kvs.lookup "url" = none ∨ kvs.lookup "url" = some (Json.str "")) :
    tool_fetch_page env (.obj kvs)
      = errorResponse "Parâmetro \x27url\x27 é obrigatório" := by
  rcases h with h | h <;> simp [tool_fetch_page, h, Json.truthy]

/-- C2: a tool call whose required parameter (`query` for the three search
tools, `url` for the fetch tool) is missing or the empty string yields an
error envelope: `isError` is `true` and `content` is a non-empty sequence
of explanatory text.  `execute_tool` is a total function in this model, so
no exception reaches the caller. -/
theorem execute_tool_missing_required_param (cfg : Config) (env : Env)
    (kvs : List (String × Json)) (name key : String)
    (hnk : ((name = "web_search" ∨ name = "news_search" ∨ name = "images_search")
              ∧ key = "query")
           ∨ (name = "fetch_page_content" ∧ key = "url"))
    (hmiss : kvs.lookup key = none ∨ kvs.lookup key = some (Json.str "")) :
    (execute_tool cfg env (.str name) (.obj kvs)).get "isError" = some (.bool true)
    ∧ ∃ xs, (execute_tool cfg env (.str name) (.obj kvs)).get "content" = some (.arr xs)
        ∧ xs ≠ [] := by
  have fin : ∀ msg : String,
      (errorResponse msg).get "isError" = some (.bool true)
      ∧ ∃ xs, (errorResponse msg).get "content" = some (.arr xs) ∧ xs ≠ [] :=
    fun msg => ⟨errorResponse_get_isError msg,
      [.obj [("type", .str "text"), ("text", .str ("Erro: " ++ msg))]],
      errorResponse_get_content msg, by simp⟩
  rcases hnk with ⟨h3, hkey⟩ | ⟨hname, hkey⟩
  · subst hkey
    rcases h3 with hname | hname | hname <;> subst hname
    · have he : execute_tool cfg env (.str "web_search") (.obj kvs)
          = errorResponse "Parâmetro \x27query\x27 é obrigatório" :=
        tool_web_search_missing_query cfg env kvs hmiss
      rw [he]; exact fin _
    · have he : execute_tool cfg env (.str "news_search") (.obj kvs)
          = errorResponse "Parâmetro \x27query\x27 é obrigatório" :=
        tool_news_search_missing_query cfg env kvs hmiss
      rw [he]; exact fin _
    · have he : execute_tool cfg env (.str "images_search") (.obj kvs)
          = errorResponse "Parâmetro \x27query\x27 é obrigatório" :=
        tool_images_search_missing_query cfg env kvs hmiss
      rw [he]; exact fin _
  · subst hkey hname
    have he : execute_tool cfg env (.str "fetch_page_content") (.obj kvs)
        = errorResponse "Parâmetro \x27url\x27 é obrigatório" :=
      tool_fetch_page_missing_url env kvs hmiss
    rw [he]; exact fin _

/-- C2 witness: calling `web_search` with no arguments at all is rejected
with an error envelope carrying explanatory text. -/
theorem execute_tool_missing_required_param_witness :
    (execute_tool defaultConfig okEnv (.str "web_search") (.obj [])).get "isError"
      = some (.bool true)
    ∧ ∃ xs, (execute_tool defaultConfig okEnv (.str "web_search") (.obj [])).get "content"
        = some (.arr xs) ∧ xs ≠ [] :=
  execute_tool_missing_required_param defaultConfig okEnv [] "web_search" "query"
    (Or.inl ⟨Or.inl rfl, rfl⟩) (Or.inl rfl)

theorem handle_mcp_initialize_rpc_get_id (cfg : Config) (rid : Json) :
    (handle_mcp_initialize_rpc cfg rid).get "id" = some rid := rfl

theorem handle_tools_list_get_id (rid : Json) :
    (handle_tools_list rid).get "id" = some rid := rfl

theorem handle_tools_call_get_id (cfg : Config) (env : Env) (rid params : Json) :
    (handle_tools_call cfg env rid params).get "id" = some rid := rfl

/-- C3: dispatching a request whose method is none of the four supported
ones yields a response whose `error.code` is the fixed -32601, whose error
message contains the offending method name, and which carries no `result`
field. -/
theorem handle_jsonrpc_unknown_method (cfg : Config) (env : Env)
    (freshId : String) (body : Json) (m : String)
    (hm : body.getD "method" (.str "") = .str m)
    (hnot : m ≠ "initialize" ∧ m ≠ "tools/list" ∧ m ≠ "tools/call"
            ∧ m ≠ "notifications/initialized") :
    (handle_jsonrpc cfg env freshId body).get "error"
      = some (.obj [("code", .num (-32601)),
                    ("message", .str ("Método não encontrado: " ++ m))])
    ∧ (handle_jsonrpc cfg env freshId body).get "result" = none
    ∧ ∃ pre post, "Método não encontrado: " ++ m = pre ++ m ++ post := by
  obtain ⟨h1, h2, h3, h4⟩ := hnot
  have hget : handle_jsonrpc cfg env freshId body
      = Json.obj [("jsonrpc", .str "2.0"), ("id", body.getD "id" (.str freshId)),
          ("error", .obj [("code", .num (-32601)),
                          ("message", .str ("Método não encontrado: " ++ m))])] := by
    simp [handle_jsonrpc, hm, Json.isStr, h1, h2, h3, h4, pyStr]
  rw [hget]
  exact ⟨by simp [Json.get, List.lookup], by simp [Json.get, List.lookup],
    "Método não encontrado: ", "", by simp⟩

/-- C3 witness: the unknown method `ping` is answered with the -32601 error
naming it and no `result`. -/
theorem handle_jsonrpc_unknown_method_witness :
    (handle_jsonrpc defaultConfig okEnv "u1"
        (.obj [("method", .str "ping"), ("id", .num 3)])).get "error"
      = some (.obj [("code", .num (-32601)),
                    ("message", .str ("Método não encontrado: " ++ "ping"))])
    ∧ (handle_jsonrpc defaultConfig okEnv "u1"
        (.obj [("method", .str "ping"), ("id", .num 3)])).get "result" = none
    ∧ ∃ pre post, "Método não encontrado: " ++ "ping" = pre ++ "ping" ++ post :=
  handle_jsonrpc_unknown_method defaultConfig okEnv "u1"
    (.obj [("method", .str "ping"), ("id", .num 3)]) "ping" rfl
    (by refine ⟨?_, ?_, ?_, ?_⟩ <;> decide)

/-- C4: a well-formed request with one of the four supported methods and an
`id` field is answered with a response whose `id` equals the request's. -/
theorem handle_jsonrpc_echoes_id (cfg : Config) (env : Env) (freshId : String)
    (body v : Json) (m : String)
    (hid : body.get "id" = some v)
    (hm : body.getD "method" (.str "") = .str m)
    (hfour : m = "initialize" ∨ m = "tools/list" ∨ m = "tools/call"
             ∨ m = "notifications/initialized") :
    (handle_jsonrpc cfg env freshId body).get "id" = some v := by
  have hrid : body.getD "id" (.str freshId) = v := by simp [Json.getD, hid]
  rcases hfour with hm4 | hm4 | hm4 | hm4 <;> subst hm4 <;>
    simp [handle_jsonrpc, hm, hrid, Json.isStr, handle_mcp_initialize_rpc,
      handle_tools_list, handle_tools_call, Json.get, List.lookup]

/-- C4 witness: a `tools/list` call with id 5 is answered with id 5. -/
theorem handle_jsonrpc_echoes_id_witness :
    (handle_jsonrpc defaultConfig okEnv "u2"
        (.obj [("method", .str "tools/list"), ("id", .num 5)])).get "id"
      = some (.num 5) :=
  handle_jsonrpc_echoes_id defaultConfig okEnv "u2"
    (.obj [("method", .str "tools/list"), ("id", .num 5)]) (.num 5) "tools/list"
    rfl rfl (Or.inr (Or.inl rfl))

/-- C9: a request with no `id` field (a notification) still receives a full
response whose `id` is the freshly generated UUID string — never null and
never absent, for every method including unknown ones. -/
theorem handle_jsonrpc_notification_gets_fresh_id (cfg : Config) (env : Env)
    (freshId : String) (body : Json)
    (hid : body.get "id" = none) :
    (handle_jsonrpc cfg env freshId body).get "id" = some (.str freshId) := by
  have hrid : body.getD "id" (.str freshId) = .str freshId := by simp [Json.getD, hid]
  simp only [handle_jsonrpc, hrid]
  split
  · exact handle_mcp_initialize_rpc_get_id cfg _
  · split
    · exact handle_tools_list_get_id _
    · split
      · exact handle_tools_call_get_id cfg env _ _
      · split <;> simp [Json.get, List.lookup]

/-- C9 witness: an id-less `notifications/initialized` notification is
answered with the generated UUID as its id. -/
theorem handle_jsonrpc_notification_gets_fresh_id_witness :
    (handle_jsonrpc defaultConfig okEnv "uuid-1234"
        (.obj [("method", .str "notifications/initialized")])).get "id"
      = some (.str "uuid-1234") :=
  handle_jsonrpc_notification_gets_fresh_id defaultConfig okEnv "uuid-1234"
    (.obj [("method", .str "notifications/initialized")]) rfl

theorem lookup_append_or (k : String) (l1 l2 : List (String × Json)) :
    List.lookup k (l1 ++ l2) = (List.lookup k l1).or (List.lookup k l2) := by
  induction l1 with
  | nil => simp [List.lookup]
  | cons a t ih =>
    cases a with
    | mk k0 v0 =>
      by_cases hk : (k == k0) = true <;>
        simp [List.lookup, hk, ih]

theorem lookup_ite_single_ne (k k' : String) (v : Json) (c : Prop) [Decidable c]
    (hne : (k == k') = false) :
    List.lookup k (if c then [(k', v)] else []) = none := by
  split <;> simp [List.lookup, hne]

/-- C5 counterexample: with `safesearch` absent from the arguments, the
parameter set `_tool_web_search` sends contains no `safesearch` entry at all
(in particular not `0`), and the one `_tool_images_search` sends contains
none either (in particular not `1`) — the 0/1 defaults exist only in the
tool schemas. -/
theorem safesearch_default_counterexample :
    List.lookup "safesearch" (webSearchParams [("query", Json.str "cats")]) = none
    ∧ List.lookup "safesearch" (imagesSearchParams [("query", Json.str "dogs")]) = none
    ∧ List.lookup "safesearch" (webSearchParams [("query", Json.str "cats")])
        ≠ some (Json.num 0)
    ∧ List.lookup "safesearch" (imagesSearchParams [("query", Json.str "dogs")])
        ≠ some (Json.num 1) := by
  have h1 : List.lookup "safesearch" (webSearchParams [("query", Json.str "cats")])
      = none := rfl
  have h2 : List.lookup "safesearch" (imagesSearchParams [("query", Json.str "dogs")])
      = none := rfl
  refine ⟨h1, h2, ?_, ?_⟩
  · rw [h1]; simp
  · rw [h2]; simp

/-- C5 (amended): the `safesearch` entry of the backend parameter set built
by `_tool_web_search` and `_tool_images_search` mirrors the argument
exactly: omitted when the argument is absent or `None` (the 0/1 defaults
live only in the tool schemas and are never injected), and passed through
unchanged — including an explicit 0 — when supplied. -/
theorem safesearch_param_amended (kvs : List (String × Json)) :
    List.lookup "safesearch" (webSearchParams kvs)
      = (match kvs.lookup "safesearch" with
         | some v => if v.isNull then none else some v
         | none => none)
    ∧ List.lookup "safesearch" (imagesSearchParams kvs)
      = (match kvs.lookup "safesearch" with
         | some v => if v.isNull then none else some v
         | none => none) := by
  constructor
  · simp only [webSearchParams, lookup_append_or,
      lookup_ite_single_ne _ _ _ _ (by decide : ("safesearch" == "engines") = false),
      lookup_ite_single_ne _ _ _ _ (by decide : ("safesearch" == "language") = false),
      lookup_ite_single_ne _ _ _ _ (by decide : ("safesearch" == "time_range") = false),
      lookup_ite_single_ne _ _ _ _ (by decide : ("safesearch" == "pageno") = false)]
    simp only [List.lookup, show ("safesearch" == "q") = false from by decide,
      show ("safesearch" == "categories") = false from by decide]
    cases hss : kvs.lookup "safesearch" with
    | none => simp [hss, Json.isNull, List.lookup]
    | some v =>
      cases v <;> simp [hss, Json.isNull, List.lookup]
  · simp only [imagesSearchParams, lookup_append_or,
      lookup_ite_single_ne _ _ _ _ (by decide : ("safesearch" == "engines") = false),
      lookup_ite_single_ne _ _ _ _ (by decide : ("safesearch" == "language") = false),
      lookup_ite_single_ne _ _ _ _ (by decide : ("safesearch" == "pageno") = false)]
    simp only [List.lookup, show ("safesearch" == "q") = false from by decide,
      show ("safesearch" == "categories") = false from by decide]
    cases hss : kvs.lookup "safesearch" with
    | none => simp [hss, Json.isNull, List.lookup]
    | some v =>
      cases v <;> simp [hss, Json.isNull, List.lookup]

theorem textEnvelope_get_isError (t : String) :
    (textEnvelope t).get "isError" = some (.bool false) := rfl

/-- C1 counterexample: `fetch_page_content` on a URL served as
`application/pdf` produces an envelope whose `isError` is `false` — not
`true` as claimed — although its text does name the unsupported type. -/
theorem fetch_pdf_counterexample :
    (execute_tool defaultConfig pdfEnv (.str "fetch_page_content")
        (.obj [("url", .str "http://example.com/doc.pdf")])).get "isError"
      = some (.bool false)
    ∧ execute_tool defaultConfig pdfEnv (.str "fetch_page_content")
        (.obj [("url", .str "http://example.com/doc.pdf")])
      = textEnvelope ("## Conteúdo de: http://example.com/doc.pdf\n\n"
          ++ "Tipo de conteúdo não suportado: application/pdf") := by
  constructor <;> rfl

/-- C1 (amended): for a `fetch_page_content` call with a non-empty string
`url` whose fetch answers 200 with a Content-Type that contains neither
`text/html` nor `text/plain`, `execute_tool` returns an envelope whose
`isError` is `false` (the fetch errors are reported in-band) and whose text
names the unsupported content type. -/
theorem fetch_unsupported_content_type_amended (cfg : Config) (env : Env)
    (kvs : List (String × Json)) (url ct body : String)
    (hurl : kvs.lookup "url" = some (Json.str url))
    (hne : url ≠ "")
    (hfetch : env.fetch url = .resp 200 ct body)
    (hhtml : ¬ strContains ct "text/html")
    (hplain : ¬ strContains ct "text/plain") :
    execute_tool cfg env (.str "fetch_page_content") (.obj kvs)
      = textEnvelope ("## Conteúdo de: " ++ url ++ "\n\n"
          ++ ("Tipo de conteúdo não suportado: " ++ ct))
    ∧ (execute_tool cfg env (.str "fetch_page_content") (.obj kvs)).get "isError"
        = some (.bool false)
    ∧ strContains ("## Conteúdo de: " ++ url ++ "\n\n"
          ++ ("Tipo de conteúdo não suportado: " ++ ct))
        ("Tipo de conteúdo não suportado: " ++ ct) := by
  have hmain : execute_tool cfg env (.str "fetch_page_content") (.obj kvs)
      = textEnvelope ("## Conteúdo de: " ++ url ++ "\n\n"
          ++ ("Tipo de conteúdo não suportado: " ++ ct)) := by
    show tool_fetch_page env (.obj kvs) = _
    simp only [tool_fetch_page, hurl, Option.getD_some]
    rw [if_neg (by simp [Json.truthy, hne])]
    have hfu : fetchUrl env (pyStr (.str url)) (intArg kvs "max_length" 20000)
        = "Tipo de conteúdo não suportado: " ++ ct := by
      simp only [pyStr, fetchUrl, hfetch]
      rw [if_neg (by omega), if_pos ⟨hhtml, hplain⟩]
    rw [hfu]
    rfl
  refine ⟨hmain, by rw [hmain]; exact textEnvelope_get_isError _, ?_⟩
  show _ <:+: _
  refine ⟨("## Conteúdo de: " ++ url ++ "\n\n").data, [], ?_⟩
  simp

/-- C1 witness: the amended statement at a concrete PDF URL. -/
theorem fetch_unsupported_content_type_amended_witness :
    execute_tool defaultConfig pdfEnv (.str "fetch_page_content")
        (.obj [("url", .str "http://x.test/a.pdf")])
      = textEnvelope ("## Conteúdo de: " ++ "http://x.test/a.pdf" ++ "\n\n"
          ++ ("Tipo de conteúdo não suportado: " ++ "application/pdf"))
    ∧ (execute_tool defaultConfig pdfEnv (.str "fetch_page_content")
        (.obj [("url", .str "http://x.test/a.pdf")])).get "isError"
        = some (.bool false)
    ∧ strContains ("## Conteúdo de: " ++ "http://x.test/a.pdf" ++ "\n\n"
          ++ ("Tipo de conteúdo não suportado: " ++ "application/pdf"))
        ("Tipo de conteúdo não suportado: " ++ "application/pdf") :=
  fetch_unsupported_content_type_amended defaultConfig pdfEnv
    [("url", .str "http://x.test/a.pdf")] "http://x.test/a.pdf"
    "application/pdf" "" rfl (by decide) rfl (by decide) (by decide)

theorem lookup_setA_ne (kvs : List (String × Json)) (k k' : String) (v : Json)
    (hne : (k' == k) = false) :
    List.lookup k' (setA kvs k v) = List.lookup k' kvs := by
  induction kvs with
  | nil => simp [setA, List.lookup, hne]
  | cons a t ih =>
    cases a with
    | mk k0 v0 =>
      by_cases h0 : k0 = k
      · subst h0
        simp [setA, List.lookup, hne]
      · by_cases h1 : (k' == k0) = true <;>
          simp [setA, h0, List.lookup, h1, ih]

theorem get_jsonSetKey_ne (j : Json) (k k' : String) (v : Json)
    (hne : (k' == k) = false) :
    (jsonSetKey j k v).get k' = j.get k' := by
  cases j <;> simp [jsonSetKey, Json.get, lookup_setA_ne _ _ _ _ hne]

/-- C6 counterexample: with `max_results = -1` (a Python int the slice
accepts) and a backend document holding two results, the search formatter
enumerates one result subsection — more than `max_results` allows, so the
cap does not hold for every integer `max_results`. -/
theorem max_results_cap_counterexample :
    (searchTaken (.obj [("results",
        .arr [.obj [("title", .str "A")], .obj [("title", .str "B")]])]) (-1)).length = 1
    ∧ ¬ (((searchTaken (.obj [("results",
        .arr [.obj [("title", .str "A")], .obj [("title", .str "B")]])]) (-1)).length : Int)
          ≤ -1)
    ∧ searchResultLines (searchTaken (.obj [("results",
        .arr [.obj [("title", .str "A")], .obj [("title", .str "B")]])]) (-1))
      = ["### 1. [A]()\n"] := by
  refine ⟨rfl, by decide, rfl⟩

/-- C6 (amended): for every backend JSON document and every nonnegative
`max_results`, the search and image formatters enumerate at most
`max_results` result subsections — the enumerated list is truncated by
`searchTaken`/`imagesTaken` regardless of how many results the backend sent —
and the `number_of_results` metadata influences neither the enumerated
results nor the answers/suggestions blocks (it is reported only by
`searchHeaderLines`). -/
theorem max_results_caps_sections_amended (data : Json) (m : Int) (hm : 0 ≤ m)
    (q : String) (news : Bool) (v : Json) :
    ((searchTaken data m).length : Int) ≤ m
    ∧ ((imagesTaken data m).length : Int) ≤ m
    ∧ format_search_results data m q news
      = textEnvelope (String.intercalate "\n"
          (searchHeaderLines data q news ++ searchAnswerLines data
           ++ searchResultLines (searchTaken data m) ++ searchSuggestionLines data))
    ∧ format_image_results data m q
      = textEnvelope (String.intercalate "\n"
          (("## Resultados de imagens: \"" ++ q ++ "\"\n")
            :: imageResultLines (imagesTaken data m)))
    ∧ searchTaken (jsonSetKey data "number_of_results" v) m = searchTaken data m
    ∧ imagesTaken (jsonSetKey data "number_of_results" v) m = imagesTaken data m
    ∧ searchAnswerLines (jsonSetKey data "number_of_results" v) = searchAnswerLines data
    ∧ searchSuggestionLines (jsonSetKey data "number_of_results" v)
        = searchSuggestionLines data := by
  have hlen : ∀ xs : List Json, ((pyTakeList m xs).length : Int) ≤ m := by
    intro xs
    simp only [pyTakeList, if_pos hm, List.length_take]
    omega
  refine ⟨hlen _, hlen _, rfl, rfl, ?_, ?_, ?_, ?_⟩
  · simp only [searchTaken, Json.getD,
      get_jsonSetKey_ne data "number_of_results" "results" v (by decide)]
  · simp only [imagesTaken, Json.getD,
      get_jsonSetKey_ne data "number_of_results" "results" v (by decide)]
  · simp only [searchAnswerLines, Json.getD,
      get_jsonSetKey_ne data "number_of_results" "answers" v (by decide)]
  · simp only [searchSuggestionLines, Json.getD,
      get_jsonSetKey_ne data "number_of_results" "suggestions" v (by decide)]

/-- C6 witness: the amended cap at `max_results = 2` on a three-result
document whose `number_of_results` says 1000000. -/
theorem max_results_caps_sections_amended_witness :
    ((searchTaken (.obj [("number_of_results", .num 1000000),
        ("results", .arr [.obj [], .obj [], .obj []])]) 2).length : Int) ≤ 2
    ∧ ((imagesTaken (.obj [("number_of_results", .num 1000000),
        ("results", .arr [.obj [], .obj [], .obj []])]) 2).length : Int) ≤ 2
    ∧ format_search_results (.obj [("number_of_results", .num 1000000),
        ("results", .arr [.obj [], .obj [], .obj []])]) 2 "q" false
      = textEnvelope (String.intercalate "\n"
          (searchHeaderLines (.obj [("number_of_results", .num 1000000),
              ("results", .arr [.obj [], .obj [], .obj []])]) "q" false
           ++ searchAnswerLines (.obj [("number_of_results", .num 1000000),
              ("results", .arr [.obj [], .obj [], .obj []])])
           ++ searchResultLines (searchTaken (.obj [("number_of_results", .num 1000000),
              ("results", .arr [.obj [], .obj [], .obj []])]) 2)
           ++ searchSuggestionLines (.obj [("number_of_results", .num 1000000),
              ("results", .arr [.obj [], .obj [], .obj []])])))
    ∧ format_image_results (.obj [("number_of_results", .num 1000000),
        ("results", .arr [.obj [], .obj [], .obj []])]) 2 "q"
      = textEnvelope (String.intercalate "\n"
          (("## Resultados de imagens: \"" ++ "q" ++ "\"\n")
            :: imageResultLines (imagesTaken (.obj [("number_of_results", .num 1000000),
                ("results", .arr [.obj [], .obj [], .obj []])]) 2)))
    ∧ searchTaken (jsonSetKey (.obj [("number_of_results", .num 1000000),
        ("results", .arr [.obj [], .obj [], .obj []])]) "number_of_results" (.num 7)) 2
      = searchTaken (.obj [("number_of_results", .num 1000000),
        ("results", .arr [.obj [], .obj [], .obj []])]) 2
    ∧ imagesTaken (jsonSetKey (.obj [("number_of_results", .num 1000000),
        ("results", .arr [.obj [], .obj [], .obj []])]) "number_of_results" (.num 7)) 2
      = imagesTaken (.obj [("number_of_results", .num 1000000),
        ("results", .arr [.obj [], .obj [], .obj []])]) 2
    ∧ searchAnswerLines (jsonSetKey (.obj [("number_of_results", .num 1000000),
        ("results", .arr [.obj [], .obj [], .obj []])]) "number_of_results" (.num 7))
      = searchAnswerLines (.obj [("number_of_results", .num 1000000),
        ("results", .arr [.obj [], .obj [], .obj []])])
    ∧ searchSuggestionLines (jsonSetKey (.obj [("number_of_results", .num 1000000),
        ("results", .arr [.obj [], .obj [], .obj []])]) "number_of_results" (.num 7))
      = searchSuggestionLines (.obj [("number_of_results", .num 1000000),
        ("results", .arr [.obj [], .obj [], .obj []])]) :=
  max_results_caps_sections_amended
    (.obj [("number_of_results", .num 1000000),
        ("results", .arr [.obj [], .obj [], .obj []])]) 2 (by decide) "q" false (.num 7)

theorem lookup_cons_ne {B : Type} (k a : String) (b : B) (t : List (String × B))
    (h : (k == a) = false) :
    List.lookup k ((a, b) :: t) = List.lookup k t := by
  simp [List.lookup, h]

theorem lookup_cons_hit {B : Type} (k a : String) (b : B) (t : List (String × B))
    (h : (k == a) = true) :
    List.lookup k ((a, b) :: t) = some b := by
  simp [List.lookup, h]

theorem lookup_none_uncons {B : Type} (k a : String) (b : B) (t : List (String × B))
    (h : List.lookup k ((a, b) :: t) = none) :
    (k == a) = false ∧ List.lookup k t = none := by
  by_cases hs : (k == a) = true
  · rw [lookup_cons_hit k a b t hs] at h; cases h
  · have hs' : (k == a) = false := by simpa using hs
    exact ⟨hs', by rwa [lookup_cons_ne k a b t hs'] at h⟩

theorem regLookup_regErase_self (st : Registry) (sid : String) :
    regLookup (regErase st sid) sid = none := by
  induction st with
  | nil => rfl
  | cons a t ih =>
    cases a with
    | mk k v =>
      by_cases hk : k = sid
      · have hp : ((k, v).1 != sid) = false := by simp [hk]
        simpa [regErase, List.filter_cons, hp] using ih
      · have hp : ((k, v).1 != sid) = true := by simp [hk]
        have hs : (sid == k) = false := by simp [Ne.symm hk]
        simp only [regErase, List.filter_cons, hp, reduceIte]
        rw [show regLookup ((k, v) :: List.filter (fun p => p.1 != sid) t) sid
            = regLookup (List.filter (fun p => p.1 != sid) t) sid from
          lookup_cons_ne sid k v _ hs]
        exact ih

theorem regLookup_regErase_none (st : Registry) (sid k : String)
    (h : regLookup st sid = none) :
    regLookup (regErase st k) sid = none := by
  induction st with
  | nil => rfl
  | cons a t ih =>
    cases a with
    | mk k0 v0 =>
      obtain ⟨hs, ht⟩ := lookup_none_uncons sid k0 v0 t h
      by_cases hk : ((k0, v0).1 != k) = true
      · simp only [regErase, List.filter_cons, hk, reduceIte]
        rw [show regLookup ((k0, v0) :: List.filter (fun p => p.1 != k) t) sid
            = regLookup (List.filter (fun p => p.1 != k) t) sid from
          lookup_cons_ne sid k0 v0 _ hs]
        exact ih ht
      · have hk' : ((k0, v0).1 != k) = false := by simpa using hk
        simpa [regErase, List.filter_cons, hk'] using ih ht

theorem regLookup_regSet_none (st : Registry) (sid k : String) (q : List Json)
    (hne : sid ≠ k) (h : regLookup st sid = none) :
    regLookup (regSet st k q) sid = none := by
  have hks : (sid == k) = false := by simp [hne]
  induction st with
  | nil =>
    show List.lookup sid [(k, q)] = none
    rw [lookup_cons_ne sid k q [] hks]
    rfl
  | cons a t ih =>
    cases a with
    | mk k0 v0 =>
      obtain ⟨hs, ht⟩ := lookup_none_uncons sid k0 v0 t h
      by_cases hk : k0 = k
      · subst hk
        rw [show regSet ((k0, v0) :: t) k0 q = (k0, q) :: t from by simp [regSet]]
        rw [show regLookup ((k0, q) :: t) sid = regLookup t sid from
          lookup_cons_ne sid k0 q t hs]
        exact ht
      · rw [show regSet ((k0, v0) :: t) k q = (k0, v0) :: regSet t k q from by
          simp [regSet, hk]]
        rw [show regLookup ((k0, v0) :: regSet t k q) sid
            = regLookup (regSet t k q) sid from lookup_cons_ne sid k0 v0 _ hs]
        exact ih ht

theorem sseStep_preserves_unregistered (cfg : Config) (env : Env)
    (st : Registry) (sid : String) (e : SseEvent)
    (h : regLookup st sid = none) (hne : e ≠ .connect sid) :
    regLookup (sseStep cfg env st e) sid = none := by
  cases e with
  | connect sid' =>
    have : sid ≠ sid' := by rintro rfl; exact hne rfl
    exact regLookup_regSet_none st sid sid' [] this h
  | cleanup sid' => exact regLookup_regErase_none st sid sid' h
  | post sid' body freshId =>
    simp only [sseStep, handle_messages_atomic, handle_messages]
    split
    · exact h
    · rename_i hcond
      simp only [handleMessagesEnqueue]
      cases hq : regLookup st sid' with
      | none => exact h
      | some q =>
        have : sid ≠ sid' := by
          rintro rfl; rw [h] at hq; cases hq
        exact regLookup_regSet_none st sid sid' (q ++ [handle_jsonrpc cfg env freshId body]) this h

theorem foldl_sseStep_preserves_unregistered (cfg : Config) (env : Env)
    (sid : String) (evs : List SseEvent) :
    ∀ st : Registry, regLookup st sid = none → SseEvent.connect sid ∉ evs →
      regLookup (evs.foldl (sseStep cfg env) st) sid = none := by
  induction evs with
  | nil => intro st h _; exact h
  | cons e t ih =>
    intro st h hno
    simp only [List.foldl_cons]
    exact ih _ (sseStep_preserves_unregistered cfg env st sid e h
        (by rintro rfl; exact hno (List.mem_cons_self _ _)))
      (fun hm => hno (List.mem_cons_of_mem _ hm))

/-- C8: once a session's delivery loop has exited (for any reason — the
`finally` block runs on return, disconnect, cancellation and exception
alike), its id is gone from the registry, it stays gone under any further
events that do not register that very id anew (fresh UUIDs never do), and
every subsequent `POST /messages` naming it gets the HTTP 400 session-error
response with the registry untouched — the request is not dispatched. -/
theorem sse_disconnect_deregisters (cfg : Config) (env : Env) (st : Registry)
    (sid : String) (evs : List SseEvent) (body : Json) (freshId : String)
    (hno : SseEvent.connect sid ∉ evs) :
    regLookup (evs.foldl (sseStep cfg env) (sseStep cfg env st (.cleanup sid))) sid = none
    ∧ handle_messages_atomic cfg env
        (evs.foldl (sseStep cfg env) (sseStep cfg env st (.cleanup sid))) sid body freshId
      = ((400, sessionErrorJson),
         evs.foldl (sseStep cfg env) (sseStep cfg env st (.cleanup sid))) := by
  have hnone : regLookup
      (evs.foldl (sseStep cfg env) (sseStep cfg env st (.cleanup sid))) sid = none :=
    foldl_sseStep_preserves_unregistered cfg env sid evs _
      (regLookup_regErase_self st sid) hno
  refine ⟨hnone, ?_⟩
  simp [handle_messages_atomic, handle_messages, hnone]

/-- C8 witness: after the cleanup of session `s1`, a trace holding a foreign
post, a foreign connect and a foreign cleanup still leaves `s1` unregistered,
and posting to `s1` yields the 400 session error. -/
theorem sse_disconnect_deregisters_witness :
    regLookup ([SseEvent.post "s9" (.obj []) "f1", SseEvent.connect "s2",
        SseEvent.cleanup "s2"].foldl (sseStep defaultConfig okEnv)
        (sseStep defaultConfig okEnv [("s1", [])] (.cleanup "s1"))) "s1" = none
    ∧ handle_messages_atomic defaultConfig okEnv
        ([SseEvent.post "s9" (.obj []) "f1", SseEvent.connect "s2",
            SseEvent.cleanup "s2"].foldl (sseStep defaultConfig okEnv)
            (sseStep defaultConfig okEnv [("s1", [])] (.cleanup "s1")))
        "s1" (.obj [("method", .str "tools/list")]) "f2"
      = ((400, sessionErrorJson),
         [SseEvent.post "s9" (.obj []) "f1", SseEvent.connect "s2",
            SseEvent.cleanup "s2"].foldl (sseStep defaultConfig okEnv)
            (sseStep defaultConfig okEnv [("s1", [])] (.cleanup "s1"))) :=
  sse_disconnect_deregisters defaultConfig okEnv [("s1", [])] "s1"
    [SseEvent.post "s9" (.obj []) "f1", SseEvent.connect "s2", SseEvent.cleanup "s2"]
    (.obj [("method", .str "tools/list")]) "f2"
    (by intro hm; simp [List.mem_cons] at hm)

/-- C10: when the session check at the top of `handle_messages` passes but
the session is deregistered by the time the dispatcher's response is to be
enqueued, the enqueue is skipped (the registry is returned unchanged, the
response dropped) and the submission is still acknowledged with 202. -/
theorem handle_messages_midcall_disconnect (cfg : Config) (env : Env)
    (st0 st1 : Registry) (sid : String) (body : Json) (freshId : String)
    (hsid : sid ≠ "") (hreg : (regLookup st0 sid).isSome = true)
    (hgone : regLookup st1 sid = none) :
    handle_messages cfg env st0 st1 sid body freshId = ((202, acceptedJson), st1) := by
  have hcond : ((sid == "") || (regLookup st0 sid).isNone) = false := by
    have h1 : (sid == "") = false := by simp [hsid]
    have h2 : (regLookup st0 sid).isNone = false := by
      cases hq : regLookup st0 sid with
      | none => rw [hq] at hreg; cases hreg
      | some q => rfl
    simp [h1, h2]
  simp [handle_messages, hcond, handleMessagesEnqueue, hgone]

/-- C10 witness: session `s1` registered at entry, gone at enqueue time:
acknowledged 202, registry unchanged. -/
theorem handle_messages_midcall_disconnect_witness :
    handle_messages defaultConfig okEnv [("s1", [])] [] "s1"
        (.obj [("method", .str "tools/list")]) "f3"
      = ((202, acceptedJson), []) :=
  handle_messages_midcall_disconnect defaultConfig okEnv [("s1", [])] [] "s1"
    (.obj [("method", .str "tools/list")]) "f3" (by decide) rfl rfl

theorem digitChar_isDigit (d : Nat) (h : d < 10) : isDigitChar (digitChar d) = true := by
  interval_cases d <;> decide

theorem digitVal_digitChar (d : Nat) (h : d < 10) : digitVal (digitChar d) = d := by
  interval_cases d <;> decide

theorem natToDigits_all_digits (n : Nat) :
    ∀ c ∈ natToDigits n, isDigitChar c = true := by
  induction n using Nat.strong_induction_on with
  | _ n ih =>
    rw [natToDigits]
    by_cases h : n < 10
    · simp only [h, dite_true, dif_pos]
      intro c hc
      rw [List.mem_singleton] at hc
      subst hc
      exact digitChar_isDigit n h
    · rw [dif_neg h]
      intro c hc
      rcases List.mem_append.mp hc with hc | hc
      · exact ih (n / 10) (Nat.div_lt_self (by omega) (by omega)) c hc
      · rw [List.mem_singleton] at hc
        subst hc
        exact digitChar_isDigit _ (Nat.mod_lt _ (by omega))

theorem natToDigits_ne_nil (n : Nat) : natToDigits n ≠ [] := by
  rw [natToDigits]
  by_cases h : n < 10
  · rw [dif_pos h]; simp
  · rw [dif_neg h]; simp

theorem digitsVal_append_one (xs : List Char) (c : Char) :
    digitsVal (xs ++ [c]) = 10 * digitsVal xs + digitVal c := by
  simp [digitsVal, List.foldl_append]
  ring

theorem digitsVal_natToDigits (n : Nat) : digitsVal (natToDigits n) = n := by
  induction n using Nat.strong_induction_on with
  | _ n ih =>
    rw [natToDigits]
    by_cases h : n < 10
    · rw [dif_pos h]
      show digitsVal ([] ++ [digitChar n]) = n
      rw [digitsVal_append_one]
      simp [digitsVal, digitVal_digitChar n h]
    · rw [dif_neg h]
      rw [digitsVal_append_one, ih (n / 10) (Nat.div_lt_self (by omega) (by omega)),
        digitVal_digitChar _ (Nat.mod_lt _ (by omega))]
      omega

theorem digit_not_pyWs (c : Char) (h : isDigitChar c = true) : isPyWs c = false := by
  by_contra hw
  rw [Bool.not_eq_false, isPyWs] at hw
  simp only [Bool.or_eq_true, decide_eq_true_eq] at hw
  rcases hw with ((((h1 | h1) | h1) | h1) | h1) | h1 <;> subst h1 <;> simp [isDigitChar] at h

theorem digit_not_jsonWs (c : Char) (h : isDigitChar c = true) : isJsonWs c = false := by
  by_contra hw
  rw [Bool.not_eq_false, isJsonWs] at hw
  simp only [Bool.or_eq_true, decide_eq_true_eq] at hw
  rcases hw with ((h1 | h1) | h1) | h1 <;> subst h1 <;> simp [isDigitChar] at h

theorem dropWhile_head_false {p : Char → Bool} {c : Char} (l : List Char)
    (h : p c = false) : (c :: l).dropWhile p = c :: l := by
  simp [List.dropWhile, h]

theorem pyStrip_digits_space (ds : List Char) (hne : ds ≠ [])
    (hd : ∀ c ∈ ds, isDigitChar c = true) :
    pyStrip (' ' :: ds) = ds := by
  have hrev : ds.reverse ≠ [] := by simpa using hne
  obtain ⟨d, ds', hds⟩ := List.exists_cons_of_ne_nil hrev
  have hdmem : d ∈ ds := by
    have : d ∈ ds.reverse := by rw [hds]; exact List.mem_cons_self _ _
    simpa using this
  have hddig : isPyWs d = false := digit_not_pyWs d (hd d hdmem)
  obtain ⟨c0, cs0, hcs⟩ := List.exists_cons_of_ne_nil hne
  have hc0 : isPyWs c0 = false := by
    apply digit_not_pyWs
    apply hd
    rw [hcs]; exact List.mem_cons_self _ _
  unfold pyStrip
  rw [show (' ' :: ds).dropWhile isPyWs = ds.dropWhile isPyWs from by
    simp [List.dropWhile, isPyWs]]
  rw [hcs, dropWhile_head_false _ hc0, ← hcs]
  rw [hds, dropWhile_head_false _ hddig, ← hds]
  simp

theorem pyStrip_digits (ds : List Char) (hne : ds ≠ [])
    (hd : ∀ c ∈ ds, isDigitChar c = true) :
    pyStrip ds = ds := by
  have h := pyStrip_digits_space ds hne hd
  unfold pyStrip at h ⊢
  rw [show (' ' :: ds).dropWhile isPyWs = ds.dropWhile isPyWs from by
    simp [List.dropWhile, isPyWs]] at h
  exact h

theorem takeBytes_exact (cs rest : List Char) :
    takeBytes (utf8LenChars cs) (cs ++ rest) = some (cs, rest) := by
  induction cs with
  | nil => simp [utf8LenChars, takeBytes]
  | cons c t ih =>
    have hpos := Char.utf8Size_pos c
    have hlen : utf8LenChars (c :: t) = c.utf8Size + utf8LenChars t := by
      simp [utf8LenChars]
    obtain ⟨k, hk⟩ : ∃ k, utf8LenChars (c :: t) = k + 1 := by
      refine ⟨c.utf8Size + utf8LenChars t - 1, ?_⟩
      omega
    rw [hk]
    show takeBytes (k + 1) (c :: (t ++ rest)) = some (c :: t, rest)
    rw [takeBytes]
    rw [if_pos (by omega)]
    have : k + 1 - c.utf8Size = utf8LenChars t := by omega
    rw [this, ih]
    rfl

theorem readline_no_newline (xs rest : List Char) (h : '\n' ∉ xs) :
    readline (xs ++ '\n' :: rest) = (xs ++ ['\n'], rest) := by
  induction xs with
  | nil => simp [readline]
  | cons c t ih =>
    have hc : c ≠ '\n' := fun hh => h (hh ▸ List.mem_cons_self _ _)
    have ht : '\n' ∉ t := fun hh => h (List.mem_cons_of_mem _ hh)
    simp only [List.cons_append, readline, if_neg hc]
    rw [show t.append ('\n' :: rest) = t ++ '\n' :: rest from rfl, ih ht]

theorem pyIntParse_digits (ds : List Char) (hne : ds ≠ [])
    (hd : ∀ c ∈ ds, isDigitChar c = true) :
    pyIntParse ds = some ((digitsVal ds : Int)) := by
  obtain ⟨c0, cs0, hcs⟩ := List.exists_cons_of_ne_nil hne
  have hstrip := pyStrip_digits ds hne hd
  have hc0dig : isDigitChar c0 = true := hd c0 (by rw [hcs]; exact List.mem_cons_self _ _)
  have hc0 : c0 ≠ '-' := by
    intro hh
    subst hh
    simp [isDigitChar] at hc0dig
  have hall : ds.all isDigitChar = true := List.all_eq_true.mpr hd
  rw [hcs] at hstrip hall ⊢
  simp only [pyIntParse, hstrip]
  rw [if_neg hc0, if_pos hall]

theorem jdumpsChars_ne_nil (m : Json) : jdumpsChars m ≠ [] := by
  cases m with
  | null => simp [jdumpsChars]
  | bool b => cases b <;> simp [jdumpsChars]
  | num n =>
    simp only [jdumpsChars, intToDigits]
    split
    · simp
    · exact natToDigits_ne_nil _
  | str s => simp [jdumpsChars]
  | arr xs => simp [jdumpsChars]
  | obj kvs => simp [jdumpsChars]

theorem utf8LenChars_pos (cs : List Char) (h : cs ≠ []) : 0 < utf8LenChars cs := by
  obtain ⟨c, t, rfl⟩ := List.exists_cons_of_ne_nil h
  have := Char.utf8Size_pos c
  simp only [utf8LenChars, List.map_cons, List.sum_cons]
  omega

theorem takeWhile_append_all {p : Char → Bool} (xs ys : List Char)
    (h : ∀ c ∈ xs, p c = true) : (xs ++ ys).takeWhile p = xs ++ ys.takeWhile p := by
  induction xs with
  | nil => simp
  | cons c t ih =>
    have hc : p c = true := h c (List.mem_cons_self _ _)
    simp only [List.cons_append, List.takeWhile_cons, hc, reduceIte]
    rw [ih (fun c hc2 => h c (List.mem_cons_of_mem _ hc2))]

theorem dropWhile_append_all {p : Char → Bool} (xs ys : List Char)
    (h : ∀ c ∈ xs, p c = true) : (xs ++ ys).dropWhile p = ys.dropWhile p := by
  induction xs with
  | nil => simp
  | cons c t ih =>
    have hc : p c = true := h c (List.mem_cons_self _ _)
    simp only [List.cons_append, List.dropWhile_cons, hc, reduceIte]
    exact ih (fun c hc2 => h c (List.mem_cons_of_mem _ hc2))

theorem pyStrip_header_line (D : List Char) (hne : D ≠ [])
    (hd : ∀ c ∈ D, isDigitChar c = true) :
    pyStrip (("Content-Length: ".data ++ D) ++ ['\r', '\n'])
      = "Content-Length: ".data ++ D := by
  obtain ⟨d, ds', hds⟩ := List.exists_cons_of_ne_nil
    (show D.reverse ≠ [] from by simpa using hne)
  have hdmem : d ∈ D := by
    rw [← List.mem_reverse, hds]; exact List.mem_cons_self _ _
  have hdd : isPyWs d = false := digit_not_pyWs d (hd d hdmem)
  unfold pyStrip
  rw [show (("Content-Length: ".data ++ D) ++ ['\r','\n']).dropWhile isPyWs
      = ("Content-Length: ".data ++ D) ++ ['\r','\n'] from by
    rw [show "Content-Length: ".data = 'C' :: "ontent-Length: ".data from rfl]
    simp only [List.cons_append]
    exact dropWhile_head_false _ (by decide)]
  rw [List.reverse_append, List.reverse_append]
  rw [show (['\r', '\n'] : List Char).reverse
        ++ (D.reverse ++ "Content-Length: ".data.reverse)
      = '\n' :: '\r' :: (D.reverse ++ "Content-Length: ".data.reverse) from rfl]
  rw [List.dropWhile_cons, if_pos (by decide), List.dropWhile_cons, if_pos (by decide)]
  rw [hds, List.cons_append, dropWhile_head_false _ hdd, ← List.cons_append, ← hds]
  rw [List.reverse_append, List.reverse_reverse, List.reverse_reverse]

theorem header_line_key (D : List Char) :
    (pyStrip (("Content-Length: ".data ++ D).takeWhile (· ≠ ':'))).map Char.toLower
      = "content-length".data := by
  rw [show "Content-Length: ".data ++ D
      = "Content-Length".data ++ ':' :: ' ' :: D from rfl]
  rw [takeWhile_append_all _ _ (by decide)]
  rw [List.takeWhile_cons, if_neg (by decide)]
  rfl

theorem header_line_value (D : List Char) (hne : D ≠ [])
    (hd : ∀ c ∈ D, isDigitChar c = true) :
    pyStrip ((("Content-Length: ".data ++ D).dropWhile (· ≠ ':')).drop 1) = D := by
  rw [show "Content-Length: ".data ++ D
      = "Content-Length".data ++ ':' :: ' ' :: D from rfl]
  rw [dropWhile_append_all _ _ (by decide)]
  rw [List.dropWhile_cons, if_neg (by decide)]
  rw [List.drop_one, List.tail_cons]
  exact pyStrip_digits_space D hne hd

theorem newline_not_digit (c : Char) (h : isDigitChar c = true) : c ≠ '\n' := by
  intro hh; subst hh; simp [isDigitChar] at h

theorem readHeadersGo_blank (acc : List (List Char × List Char)) (body : List Char) :
    readHeadersGo acc ('\r' :: '\n' :: body) = some (acc, body) := by
  rw [readHeadersGo]
  rw [dif_neg (by simp)]
  have hrl : readline ('\r' :: '\n' :: body) = (['\r', '\n'], body) :=
    readline_no_newline ['\r'] body (by decide)
  rw [hrl]
  simp [show pyStrip (['\r', '\n'] : List Char) = [] from rfl]

theorem readHeadersGo_frame (D body : List Char) (hne : D ≠ [])
    (hd : ∀ c ∈ D, isDigitChar c = true) :
    readHeadersGo [] ("Content-Length: ".data ++ (D ++ '\r' :: '\n' :: '\r' :: '\n' :: body))
      = some ([("content-length".data, D)], body) := by
  have hshape : "Content-Length: ".data ++ (D ++ '\r' :: '\n' :: '\r' :: '\n' :: body)
      = (("Content-Length: ".data ++ D) ++ ['\r']) ++ '\n' :: ('\r' :: '\n' :: body) := by
    simp
  have hnomem : '\n' ∉ ("Content-Length: ".data ++ D) ++ ['\r'] := by
    intro hm
    rcases List.mem_append.mp hm with hm | hm
    · rcases List.mem_append.mp hm with hm | hm
      · revert hm; decide
      · exact newline_not_digit _ (hd _ hm) rfl
    · revert hm; decide
  have hrl : readline ("Content-Length: ".data ++ (D ++ '\r' :: '\n' :: '\r' :: '\n' :: body))
      = ((("Content-Length: ".data ++ D) ++ ['\r']) ++ ['\n'], '\r' :: '\n' :: body) := by
    rw [hshape]
    exact readline_no_newline _ _ hnomem
  have hlineshape : ((("Content-Length: ".data ++ D) ++ ['\r']) ++ ['\n'])
      = ("Content-Length: ".data ++ D) ++ ['\r', '\n'] := by simp
  rw [readHeadersGo]
  rw [dif_neg (by rw [hshape]; simp)]
  rw [hrl]
  simp only [hlineshape, pyStrip_header_line D hne hd]
  rw [if_neg (by simp)]
  rw [if_pos (show ':' ∈ "Content-Length: ".data ++ D from
    List.mem_append.mpr (Or.inl (by decide)))]
  rw [header_line_key D, header_line_value D hne hd]
  rw [show hdrSet [] ("content-length".data) D = [("content-length".data, D)] from rfl]
  exact readHeadersGo_blank _ body

theorem hexVal_hexDigitChar (d : Nat) (h : d < 16) : hexVal (hexDigitChar d) = some d := by
  interval_cases d <;> decide

theorem parseStr_escape (cs rest : List Char) :
    parseStrChars (escChars cs ++ dquote :: rest) = some (cs, rest) := by
  induction cs with
  | nil =>
    show parseStrChars (dquote :: rest) = some ([], rest)
    rw [parseStrChars.eq_def]
    simp
  | cons c t ih =>
    rw [show escChars (c :: t) = escapeChar c ++ escChars t from by
      simp [escChars]]
    rw [List.append_assoc]
    by_cases h1 : c = dquote
    · subst h1
      rw [show escapeChar dquote = [bslash, dquote] from by decide]
      simp only [List.cons_append, List.nil_append]
      rw [parseStrChars.eq_def]
      simp [show bslash ≠ dquote from by decide, ih]
    · by_cases h2 : c = bslash
      · subst h2
        rw [show escapeChar bslash = [bslash, bslash] from by decide]
        simp only [List.cons_append, List.nil_append]
        rw [parseStrChars.eq_def]
        simp [show bslash ≠ dquote from by decide, ih]
      · by_cases h3 : c = '\n'
        · subst h3
          rw [show escapeChar '\n' = [bslash, 'n'] from by decide]
          simp only [List.cons_append, List.nil_append]
          rw [parseStrChars.eq_def]
          simp [show bslash ≠ dquote from by decide,
            show ('n' : Char) ≠ dquote from by decide,
            show ('n' : Char) ≠ bslash from by decide, ih]
        · by_cases h4 : c = '\x0d'
          · subst h4
            rw [show escapeChar '\x0d' = [bslash, 'r'] from by decide]
            simp only [List.cons_append, List.nil_append]
            rw [parseStrChars.eq_def]
            simp [show bslash ≠ dquote from by decide,
              show ('r' : Char) ≠ dquote from by decide,
              show ('r' : Char) ≠ bslash from by decide, ih]
          · by_cases h5 : c = '\t'
            · subst h5
              rw [show escapeChar '\t' = [bslash, 't'] from by decide]
              simp only [List.cons_append, List.nil_append]
              rw [parseStrChars.eq_def]
              simp [show bslash ≠ dquote from by decide,
                show ('t' : Char) ≠ dquote from by decide,
                show ('t' : Char) ≠ bslash from by decide, ih]
            · by_cases h6 : c = Char.ofNat 8
              · subst h6
                rw [show escapeChar (Char.ofNat 8) = [bslash, 'b'] from by decide]
                simp only [List.cons_append, List.nil_append]
                rw [parseStrChars.eq_def]
                simp [show bslash ≠ dquote from by decide,
                  show ('b' : Char) ≠ dquote from by decide,
                  show ('b' : Char) ≠ bslash from by decide, ih]
              · by_cases h7 : c = Char.ofNat 12
                · subst h7
                  rw [show escapeChar (Char.ofNat 12) = [bslash, 'f'] from by decide]
                  simp only [List.cons_append, List.nil_append]
                  rw [parseStrChars.eq_def]
                  simp [show bslash ≠ dquote from by decide,
                    show ('f' : Char) ≠ dquote from by decide,
                    show ('f' : Char) ≠ bslash from by decide, ih]
                · by_cases h8 : c.toNat < 32
                  · rw [show escapeChar c = [bslash, 'u', '0', '0',
                        hexDigitChar (c.toNat / 16), hexDigitChar (c.toNat % 16)] from by
                      simp [escapeChar, h1, h2, h3, h4, h5, h6, h7, h8]]
                    simp only [List.cons_append, List.nil_append]
                    rw [parseStrChars.eq_def]
                    simp only [show (bslash = dquote) = False from by simp; decide,
                      show (('u' : Char) = dquote) = False from by simp; decide,
                      show (('u' : Char) = bslash) = False from by simp; decide,
                      if_false, reduceIte]
                    rw [show hexVal '0' = some 0 from by decide]
                    rw [hexVal_hexDigitChar (c.toNat / 16) (by omega)]
                    rw [hexVal_hexDigitChar (c.toNat % 16) (by omega)]
                    simp only []
                    rw [ih]
                    have harith : 4096 * 0 + 256 * 0 + 16 * (c.toNat / 16) + c.toNat % 16
                        = c.toNat := by omega
                    rw [harith, Char.ofNat_toNat]
                    rfl
                  · rw [show escapeChar c = [c] from by
                      simp [escapeChar, h1, h2, h3, h4, h5, h6, h7, h8]]
                    simp only [List.cons_append, List.nil_append]
                    rw [parseStrChars.eq_def]
                    simp [h1, h2, ih]

theorem digit_ne (d x : Char) (h : isDigitChar d = true) (hx : isDigitChar x = false) :
    d ≠ x := by
  intro hh
  subst hh
  rw [h] at hx
  cases hx

theorem skipWs_cons_false (c : Char) (l : List Char) (h : isJsonWs c = false) :
    skipWs (c :: l) = c :: l := by
  simp [skipWs, List.dropWhile, h]

theorem jB_pos (v : Json) : 1 ≤ jB v := by
  cases v <;> simp [jB]

theorem jBL_cons_pos (x : Json) (xs : List Json) : 1 ≤ jBL (x :: xs) := by
  simp [jBL]

theorem jBM_cons_pos (kv : String × Json) (kvs : List (String × Json)) :
    1 ≤ jBM (kv :: kvs) := by
  cases kv
  simp [jBM]

theorem parseV_space (f : Nat) (l : List Char) :
    parseV f (' ' :: l) = parseV f l := by
  cases f with
  | zero => rfl
  | succ f =>
    rw [parseV.eq_def, parseV.eq_def]
    simp only [show skipWs (' ' :: l) = skipWs l from by
      simp [skipWs, List.dropWhile, isJsonWs]]

theorem parseElems_space (f : Nat) (l : List Char) :
    parseElems f (' ' :: l) = parseElems f l := by
  cases f with
  | zero => rfl
  | succ f =>
    rw [parseElems.eq_def, parseElems.eq_def]
    simp only [parseV_space]

theorem parseMems_space (f : Nat) (l : List Char) :
    parseMems f (' ' :: l) = parseMems f l := by
  cases f with
  | zero => rfl
  | succ f =>
    rw [parseMems.eq_def, parseMems.eq_def]
    simp only [show skipWs (' ' :: l) = skipWs l from by
      simp [skipWs, List.dropWhile, isJsonWs]]

theorem span_digits (ds rest : List Char) (hd : ∀ c ∈ ds, isDigitChar c = true)
    (hr : delimOk rest = true) :
    (ds ++ rest).span isDigitChar = (ds, rest) := by
  have htw : rest.takeWhile isDigitChar = [] ∧ rest.dropWhile isDigitChar = rest := by
    cases rest with
    | nil => simp
    | cons c r =>
      have hcd : isDigitChar c = false := by
        rcases (by simpa [delimOk] using hr : (c = ',' ∨ c = ']') ∨ c = rbrace) with
          (h | h) | h <;> subst h <;> decide
      constructor
      · simp [List.takeWhile_cons, hcd]
      · exact dropWhile_head_false r hcd
  rw [List.span_eq_take_drop]
  rw [takeWhile_append_all ds rest hd, dropWhile_append_all ds rest hd]
  rw [htw.1, htw.2]
  simp

theorem jdumps_head (v : Json) :
    ∃ c cs, jdumpsChars v = c :: cs ∧ isJsonWs c = false ∧ c ≠ ']' ∧ c ≠ rbrace := by
  cases v with
  | null => exact ⟨'n', _, rfl, by decide, by decide, by decide⟩
  | bool b =>
    cases b
    · exact ⟨'f', _, rfl, by decide, by decide, by decide⟩
    · exact ⟨'t', _, rfl, by decide, by decide, by decide⟩
  | num n =>
    simp only [jdumpsChars, intToDigits]
    by_cases hn : n < 0
    · rw [if_pos hn]
      exact ⟨'-', _, rfl, by decide, by decide, by decide⟩
    · rw [if_neg hn]
      obtain ⟨d, ds, hds⟩ := List.exists_cons_of_ne_nil (natToDigits_ne_nil n.toNat)
      have hdd : isDigitChar d = true :=
        natToDigits_all_digits n.toNat d (by rw [hds]; exact List.mem_cons_self _ _)
      exact ⟨d, ds, hds, digit_not_jsonWs d hdd,
        digit_ne d ']' hdd (by decide), digit_ne d rbrace hdd (by decide)⟩
  | str s => exact ⟨dquote, _, rfl, by decide, by decide, by decide⟩
  | arr xs => exact ⟨'[', _, rfl, by decide, by decide, by decide⟩
  | obj kvs => exact ⟨lbrace, _, rfl, by decide, by decide, by decide⟩

theorem parseV_null (f : Nat) (rest : List Char) :
    parseV (f + 1) ('n' :: 'u' :: 'l' :: 'l' :: rest) = some (.null, rest) := by
  rw [parseV.eq_def]
  simp only [skipWs_cons_false 'n' _ (by decide)]
  simp [show ('n' : Char) ≠ dquote from by decide,
        show ('n' : Char) ≠ '[' from by decide,
        show ('n' : Char) ≠ lbrace from by decide]

theorem parseV_true (f : Nat) (rest : List Char) :
    parseV (f + 1) ('t' :: 'r' :: 'u' :: 'e' :: rest) = some (.bool true, rest) := by
  rw [parseV.eq_def]
  simp only [skipWs_cons_false 't' _ (by decide)]
  simp [show ('t' : Char) ≠ dquote from by decide,
        show ('t' : Char) ≠ '[' from by decide,
        show ('t' : Char) ≠ lbrace from by decide,
        show ('t' : Char) ≠ 'n' from by decide]

theorem parseV_bfalse (f : Nat) (rest : List Char) :
    parseV (f + 1) ('f' :: 'a' :: 'l' :: 's' :: 'e' :: rest) = some (.bool false, rest) := by
  rw [parseV.eq_def]
  simp only [skipWs_cons_false 'f' _ (by decide)]
  simp [show ('f' : Char) ≠ dquote from by decide,
        show ('f' : Char) ≠ '[' from by decide,
        show ('f' : Char) ≠ lbrace from by decide,
        show ('f' : Char) ≠ 'n' from by decide,
        show ('f' : Char) ≠ 't' from by decide]

theorem parseV_str (f : Nat) (s : String) (rest : List Char) :
    parseV (f + 1) (jdumpsChars (.str s) ++ rest) = some (.str s, rest) := by
  rw [show jdumpsChars (.str s) ++ rest
      = dquote :: (escChars s.data ++ dquote :: rest) from by
    simp [jdumpsChars]]
  rw [parseV.eq_def]
  simp only [skipWs_cons_false dquote _ (by decide)]
  simp [parseStr_escape]

theorem parseV_num (f : Nat) (n : Int) (rest : List Char) (hr : delimOk rest = true) :
    parseV (f + 1) (intToDigits n ++ rest) = some (.num n, rest) := by
  by_cases hn : n < 0
  · rw [show intToDigits n = '-' :: natToDigits (-n).toNat from by
      simp [intToDigits, hn]]
    obtain ⟨d, ds, hds⟩ := List.exists_cons_of_ne_nil (natToDigits_ne_nil (-n).toNat)
    have hdig : ∀ c ∈ natToDigits (-n).toNat, isDigitChar c = true :=
      natToDigits_all_digits (-n).toNat
    rw [parseV.eq_def]
    simp only [List.cons_append, skipWs_cons_false '-' _ (by decide)]
    simp only [show ('-' : Char) ≠ dquote from by decide,
      show ('-' : Char) ≠ '[' from by decide,
      show ('-' : Char) ≠ lbrace from by decide,
      show ('-' : Char) ≠ 'n' from by decide,
      show ('-' : Char) ≠ 't' from by decide,
      show ('-' : Char) ≠ 'f' from by decide,
      if_neg, reduceIte, if_pos (rfl : ('-' : Char) = '-')]
    rw [span_digits _ rest hdig hr]
    simp only [natToDigits_ne_nil (-n).toNat, reduceIte]
    rw [digitsVal_natToDigits]
    have h2 : (-((-n).toNat : Int)) = n := by omega
    rw [h2]

  · rw [show intToDigits n = natToDigits n.toNat from by
      simp [intToDigits, hn]]
    obtain ⟨d, ds, hds⟩ := List.exists_cons_of_ne_nil (natToDigits_ne_nil n.toNat)
    have hdig : ∀ c ∈ natToDigits n.toNat, isDigitChar c = true :=
      natToDigits_all_digits n.toNat
    have hddig : isDigitChar d = true := hdig d (by rw [hds]; exact List.mem_cons_self _ _)
    have hdsdig : ∀ c ∈ ds, isDigitChar c = true := by
      intro c hc
      exact hdig c (by rw [hds]; exact List.mem_cons_of_mem _ hc)
    rw [hds]
    rw [parseV.eq_def]
    simp only [List.cons_append, skipWs_cons_false d _ (digit_not_jsonWs d hddig)]
    simp only [digit_ne d dquote hddig (by decide),
      digit_ne d '[' hddig (by decide),
      digit_ne d lbrace hddig (by decide),
      digit_ne d 'n' hddig (by decide),
      digit_ne d 't' hddig (by decide),
      digit_ne d 'f' hddig (by decide),
      digit_ne d '-' hddig (by decide),
      if_neg, reduceIte, hddig, if_pos]
    rw [span_digits ds rest hdsdig hr]
    have hdv : digitsVal (d :: ds) = n.toNat := by
      rw [← hds, digitsVal_natToDigits]
    rw [hdv]
    have : ((n.toNat : Int)) = n := Int.toNat_of_nonneg (by omega)
    rw [this]

theorem parseElems_dumps (xs : List Json)
    (hIH : ∀ x ∈ xs, ∀ fuel rest, jB x ≤ fuel → delimOk rest = true →
      parseV fuel (jdumpsChars x ++ rest) = some (x, rest)) :
    xs ≠ [] → ∀ fuel rest, jBL xs ≤ fuel → delimOk rest = true →
      parseElems fuel (jdumpsElems xs ++ ']' :: rest) = some (xs, rest) := by
  induction xs with
  | nil => intro hne; exact absurd rfl hne
  | cons x xs' ih2 =>
    intro _ fuel rest hfuel hr
    have hx := hIH x (List.mem_cons_self _ _)
    obtain ⟨f, rfl⟩ : ∃ f, fuel = f + 1 :=
      ⟨fuel - 1, by have := jBL_cons_pos x xs'; omega⟩
    cases xs' with
    | nil =>
      have hBx : jB x ≤ f := by
        have : jBL [x] = 1 + max (jB x) 0 := rfl
        omega
      have hx1 : parseV f (jdumpsChars x ++ ']' :: rest) = some (x, ']' :: rest) :=
        hx f (']' :: rest) hBx (by simp [delimOk])
      rw [show jdumpsElems [x] = jdumpsChars x from rfl]
      rw [parseElems.eq_def]
      simp only [hx1]
      simp only [skipWs_cons_false ']' _ (by decide)]
      simp [show (']' : Char) ≠ ',' from by decide]
    | cons y ys =>
      have hBx : jB x ≤ f := by
        have : jBL (x :: y :: ys) = 1 + max (jB x) (jBL (y :: ys)) := rfl
        omega
      have hBys : jBL (y :: ys) ≤ f := by
        have : jBL (x :: y :: ys) = 1 + max (jB x) (jBL (y :: ys)) := rfl
        omega
      have hshape : jdumpsElems (x :: y :: ys) ++ ']' :: rest
          = jdumpsChars x ++ (',' :: ' ' :: (jdumpsElems (y :: ys) ++ ']' :: rest)) := by
        rw [show jdumpsElems (x :: y :: ys)
            = jdumpsChars x ++ ',' :: ' ' :: jdumpsElems (y :: ys) from rfl]
        simp
      have hx1 : parseV f (jdumpsChars x
            ++ (',' :: ' ' :: (jdumpsElems (y :: ys) ++ ']' :: rest)))
          = some (x, ',' :: ' ' :: (jdumpsElems (y :: ys) ++ ']' :: rest)) :=
        hx f _ hBx (by simp [delimOk])
      have hrec : parseElems f (' ' :: (jdumpsElems (y :: ys) ++ ']' :: rest))
          = some (y :: ys, rest) := by
        rw [parseElems_space]
        exact ih2 (fun z hz => hIH z (List.mem_cons_of_mem _ hz)) (by simp)
          f rest hBys hr
      rw [hshape, parseElems.eq_def]
      simp only [hx1]
      simp only [skipWs_cons_false ',' _ (by decide)]
      simp [hrec]

theorem parseMems_dumps (kvs : List (String × Json))
    (hIH : ∀ kv ∈ kvs, ∀ fuel rest, jB kv.2 ≤ fuel → delimOk rest = true →
      parseV fuel (jdumpsChars kv.2 ++ rest) = some (kv.2, rest)) :
    kvs ≠ [] → ∀ fuel rest, jBM kvs ≤ fuel → delimOk rest = true →
      parseMems fuel (jdumpsMems kvs ++ rbrace :: rest) = some (kvs, rest) := by
  induction kvs with
  | nil => intro hne; exact absurd rfl hne
  | cons kv kvs' ih2 =>
    obtain ⟨k, v⟩ := kv
    intro _ fuel rest hfuel hr
    have hx := hIH (k, v) (List.mem_cons_self _ _)
    obtain ⟨f, rfl⟩ : ∃ f, fuel = f + 1 :=
      ⟨fuel - 1, by have := jBM_cons_pos (k, v) kvs'; omega⟩
    cases kvs' with
    | nil =>
      have hBv : jB v ≤ f := by
        have : jBM [(k, v)] = 1 + max (jB v) 0 := rfl
        omega
      obtain ⟨g, rfl⟩ : ∃ g, f = g + 1 := ⟨f - 1, by have := jB_pos v; omega⟩
      have hshape : jdumpsMems [(k, v)] ++ rbrace :: rest
          = dquote :: (escChars k.data
              ++ dquote :: ':' :: ' ' :: (jdumpsChars v ++ rbrace :: rest)) := by
        rw [show jdumpsMems [(k, v)]
            = dquote :: (escChars k.data ++ dquote :: ':' :: ' ' :: jdumpsChars v) from rfl]
        simp
      have hv1 : parseV (g + 1) (' ' :: (jdumpsChars v ++ rbrace :: rest))
          = some (v, rbrace :: rest) := by
        rw [parseV_space]
        exact hx (g + 1) _ hBv (by simp [delimOk])
      rw [hshape, parseMems.eq_def]
      simp [skipWs_cons_false dquote _ (by decide), parseStr_escape,
        skipWs_cons_false ':' _ (by decide), hv1,
        skipWs_cons_false rbrace _ (by decide),
        show rbrace ≠ ',' from by decide]
    | cons kv2 kvs2 =>
      have hBv : jB v ≤ f := by
        have : jBM ((k, v) :: kv2 :: kvs2) = 1 + max (jB v) (jBM (kv2 :: kvs2)) := by
          rfl
        omega
      have hBr : jBM (kv2 :: kvs2) ≤ f := by
        have : jBM ((k, v) :: kv2 :: kvs2) = 1 + max (jB v) (jBM (kv2 :: kvs2)) := by
          rfl
        omega
      obtain ⟨g, rfl⟩ : ∃ g, f = g + 1 := ⟨f - 1, by have := jB_pos v; omega⟩
      have hshape : jdumpsMems ((k, v) :: kv2 :: kvs2) ++ rbrace :: rest
          = dquote :: (escChars k.data ++ dquote :: ':' :: ' '
              :: (jdumpsChars v ++ ',' :: ' '
                  :: (jdumpsMems (kv2 :: kvs2) ++ rbrace :: rest))) := by
        rw [show jdumpsMems ((k, v) :: kv2 :: kvs2)
            = dquote :: (escChars k.data ++ dquote :: ':' :: ' ' :: jdumpsChars v)
              ++ ',' :: ' ' :: jdumpsMems (kv2 :: kvs2) from rfl]
        simp
      have hv1 : parseV (g + 1) (' ' :: (jdumpsChars v ++ ',' :: ' '
            :: (jdumpsMems (kv2 :: kvs2) ++ rbrace :: rest)))
          = some (v, ',' :: ' ' :: (jdumpsMems (kv2 :: kvs2) ++ rbrace :: rest)) := by
        rw [parseV_space]
        exact hx (g + 1) _ hBv (by simp [delimOk])
      have hrec : parseMems (g + 1) (' '
            :: (jdumpsMems (kv2 :: kvs2) ++ rbrace :: rest))
          = some (kv2 :: kvs2, rest) := by
        rw [parseMems_space]
        exact ih2 (fun z hz => hIH z (List.mem_cons_of_mem _ hz)) (by simp)
          (g + 1) rest hBr hr
      rw [hshape, parseMems.eq_def]
      simp [skipWs_cons_false dquote _ (by decide), parseStr_escape,
        skipWs_cons_false ':' _ (by decide), hv1,
        skipWs_cons_false ',' _ (by decide), hrec]

theorem parseV_arr_nil (f : Nat) (rest : List Char) :
    parseV (f + 1) (jdumpsChars (.arr []) ++ rest) = some (.arr [], rest) := by
  rw [show jdumpsChars (.arr []) ++ rest = '[' :: ']' :: rest from rfl]
  rw [parseV.eq_def]
  simp only [skipWs_cons_false '[' _ (by decide)]
  simp [show ('[' : Char) ≠ dquote from by decide,
    skipWs_cons_false ']' _ (by decide)]

theorem parseV_arr_cons (f : Nat) (x : Json) (xs' : List Json) (rest : List Char)
    (h : parseElems f (jdumpsElems (x :: xs') ++ ']' :: rest) = some (x :: xs', rest)) :
    parseV (f + 1) (jdumpsChars (.arr (x :: xs')) ++ rest)
      = some (.arr (x :: xs'), rest) := by
  obtain ⟨c, cs, hc, hws, hbr, hrb⟩ := jdumps_head x
  obtain ⟨tail, htail⟩ : ∃ tail, jdumpsElems (x :: xs') ++ ']' :: rest = c :: tail := by
    cases xs' with
    | nil =>
      refine ⟨cs ++ ']' :: rest, ?_⟩
      rw [show jdumpsElems [x] = jdumpsChars x from rfl, hc]
      simp
    | cons y ys =>
      refine ⟨(cs ++ ',' :: ' ' :: jdumpsElems (y :: ys)) ++ ']' :: rest, ?_⟩
      rw [show jdumpsElems (x :: y :: ys)
          = jdumpsChars x ++ ',' :: ' ' :: jdumpsElems (y :: ys) from rfl, hc]
      simp
  rw [show jdumpsChars (.arr (x :: xs')) ++ rest
      = '[' :: (jdumpsElems (x :: xs') ++ ']' :: rest) from by
    rw [show jdumpsChars (.arr (x :: xs'))
        = '[' :: (jdumpsElems (x :: xs') ++ [']']) from rfl]
    simp]
  rw [htail] at h ⊢
  rw [parseV.eq_def]
  simp only [skipWs_cons_false '[' _ (by decide)]
  simp [show ('[' : Char) ≠ dquote from by decide,
    skipWs_cons_false c tail hws, hbr, h]

theorem parseV_obj_nil (f : Nat) (rest : List Char) :
    parseV (f + 1) (jdumpsChars (.obj []) ++ rest) = some (.obj [], rest) := by
  rw [show jdumpsChars (.obj []) ++ rest = lbrace :: rbrace :: rest from rfl]
  rw [parseV.eq_def]
  simp only [skipWs_cons_false lbrace _ (by decide)]
  simp [show lbrace ≠ dquote from by decide,
    show lbrace ≠ '[' from by decide,
    skipWs_cons_false rbrace _ (by decide)]

theorem parseV_obj_cons (f : Nat) (kv : String × Json) (kvs' : List (String × Json))
    (rest : List Char)
    (h : parseMems f (jdumpsMems (kv :: kvs') ++ rbrace :: rest)
          = some (kv :: kvs', rest)) :
    parseV (f + 1) (jdumpsChars (.obj (kv :: kvs')) ++ rest)
      = some (.obj (kv :: kvs'), rest) := by
  obtain ⟨k, v⟩ := kv
  obtain ⟨tail, htail⟩ : ∃ tail,
      jdumpsMems ((k, v) :: kvs') ++ rbrace :: rest = dquote :: tail := by
    cases kvs' with
    | nil =>
      refine ⟨(escChars k.data ++ dquote :: ':' :: ' ' :: jdumpsChars v)
          ++ rbrace :: rest, ?_⟩
      rw [show jdumpsMems [(k, v)]
          = dquote :: (escChars k.data ++ dquote :: ':' :: ' ' :: jdumpsChars v) from rfl]
      simp
    | cons kv2 kvs2 =>
      refine ⟨((escChars k.data ++ dquote :: ':' :: ' ' :: jdumpsChars v)
          ++ ',' :: ' ' :: jdumpsMems (kv2 :: kvs2)) ++ rbrace :: rest, ?_⟩
      rw [show jdumpsMems ((k, v) :: kv2 :: kvs2)
          = dquote :: (escChars k.data ++ dquote :: ':' :: ' ' :: jdumpsChars v)
            ++ ',' :: ' ' :: jdumpsMems (kv2 :: kvs2) from rfl]
      simp
  rw [show jdumpsChars (.obj ((k, v) :: kvs')) ++ rest
      = lbrace :: (jdumpsMems ((k, v) :: kvs') ++ rbrace :: rest) from by
    rw [show jdumpsChars (.obj ((k, v) :: kvs'))
        = lbrace :: (jdumpsMems ((k, v) :: kvs') ++ [rbrace]) from rfl]
    simp]
  rw [htail] at h ⊢
  rw [parseV.eq_def]
  simp only [skipWs_cons_false lbrace _ (by decide)]
  simp [show lbrace ≠ dquote from by decide,
    show lbrace ≠ '[' from by decide,
    skipWs_cons_false dquote tail (by decide),
    show dquote ≠ rbrace from by decide, h]

theorem parseV_dumps (N : Nat) :
    ∀ v : Json, sizeOf v ≤ N → ∀ fuel rest, jB v ≤ fuel → delimOk rest = true →
      parseV fuel (jdumpsChars v ++ rest) = some (v, rest) := by
  induction N using Nat.strong_induction_on with
  | _ N ih =>
    intro v hsz fuel rest hfuel hr
    obtain ⟨f, rfl⟩ : ∃ f, fuel = f + 1 := ⟨fuel - 1, by have := jB_pos v; omega⟩
    cases v with
    | null => exact parseV_null f rest
    | bool b =>
      cases b
      · exact parseV_bfalse f rest
      · exact parseV_true f rest
    | num n => exact parseV_num f n rest hr
    | str s => exact parseV_str f s rest
    | arr xs =>
      cases xs with
      | nil => exact parseV_arr_nil f rest
      | cons x xs' =>
        have hspec : sizeOf (Json.arr (x :: xs')) = 1 + sizeOf (x :: xs') := by simp
        apply parseV_arr_cons
        refine parseElems_dumps (x :: xs') ?_ (by simp) f rest ?_ hr
        · intro z hz fuel2 rest2 hB2 hr2
          have hzl := List.sizeOf_lt_of_mem hz
          exact ih (sizeOf z) (by omega) z le_rfl fuel2 rest2 hB2 hr2
        · have : jB (Json.arr (x :: xs')) = 1 + jBL (x :: xs') := rfl
          omega
    | obj kvs =>
      cases kvs with
      | nil => exact parseV_obj_nil f rest
      | cons kv kvs' =>
        have hspec : sizeOf (Json.obj (kv :: kvs')) = 1 + sizeOf (kv :: kvs') := by simp
        apply parseV_obj_cons
        refine parseMems_dumps (kv :: kvs') ?_ (by simp) f rest ?_ hr
        · intro z hz fuel2 rest2 hB2 hr2
          have hzl := List.sizeOf_lt_of_mem hz
          obtain ⟨zk, zv⟩ := z
          have hzp : sizeOf ((zk, zv) : String × Json) = 1 + sizeOf zk + sizeOf zv := by
            simp
          exact ih (sizeOf zv) (by omega) zv le_rfl fuel2 rest2 hB2 hr2
        · have : jB (Json.obj (kv :: kvs')) = 1 + jBM (kv :: kvs') := rfl
          omega

theorem jB_le_dumpsLen (N : Nat) :
    ∀ v : Json, sizeOf v ≤ N → jB v ≤ (jdumpsChars v).length := by
  induction N using Nat.strong_induction_on with
  | _ N ih =>
    intro v hsz
    cases v with
    | null => simp [jB, jdumpsChars]
    | bool b => cases b <;> simp [jB, jdumpsChars]
    | num n =>
      have h1 : intToDigits n ≠ [] := by
        by_cases hn : n < 0
        · rw [intToDigits, if_pos hn]; simp
        · rw [intToDigits, if_neg hn]; exact natToDigits_ne_nil _
      have h2 : 0 < (intToDigits n).length := List.length_pos.mpr h1
      simp only [jB, jdumpsChars]
      omega
    | str s =>
      simp only [jB, jdumpsChars, List.length_cons]
      omega
    | arr xs =>
      have hmemlt : ∀ x ∈ xs, sizeOf x < N := by
        intro x hx
        have h1 := List.sizeOf_lt_of_mem hx
        have h2 : sizeOf (Json.arr xs) = 1 + sizeOf xs := by simp
        omega
      have hL : ∀ xs' : List Json, (∀ x ∈ xs', sizeOf x < N) →
          jBL xs' ≤ (jdumpsElems xs').length + 1 := by
        intro xs'
        induction xs' with
        | nil => intro _; simp [jBL, jdumpsElems]
        | cons x t ihl =>
          intro hmem
          have hx : jB x ≤ (jdumpsChars x).length :=
            ih (sizeOf x) (hmem x (List.mem_cons_self _ _)) x le_rfl
          cases t with
          | nil =>
            rw [show jdumpsElems [x] = jdumpsChars x from rfl]
            rw [show jBL [x] = 1 + max (jB x) 0 from rfl]
            omega
          | cons y ys =>
            have ht := ihl (fun z hz => hmem z (List.mem_cons_of_mem _ hz))
            rw [show jBL (x :: y :: ys) = 1 + max (jB x) (jBL (y :: ys)) from rfl]
            rw [show jdumpsElems (x :: y :: ys)
                = jdumpsChars x ++ ',' :: ' ' :: jdumpsElems (y :: ys) from rfl]
            simp only [List.length_append, List.length_cons]
            omega
      have hstep := hL xs hmemlt
      rw [show jB (Json.arr xs) = 1 + jBL xs from rfl]
      rw [show jdumpsChars (.arr xs) = '[' :: (jdumpsElems xs ++ [']']) from rfl]
      simp only [List.length_cons, List.length_append, List.length_singleton]
      omega
    | obj kvs =>
      have hmemlt : ∀ kv ∈ kvs, sizeOf kv.2 < N := by
        intro kv hkv
        have h1 := List.sizeOf_lt_of_mem hkv
        have h2 : sizeOf (Json.obj kvs) = 1 + sizeOf kvs := by simp
        obtain ⟨zk, zv⟩ := kv
        have h3 : sizeOf ((zk, zv) : String × Json) = 1 + sizeOf zk + sizeOf zv := by
          simp
        simp only at h1 h3 ⊢
        omega
      have hM : ∀ kvs' : List (String × Json), (∀ kv ∈ kvs', sizeOf kv.2 < N) →
          jBM kvs' ≤ (jdumpsMems kvs').length + 1 := by
        intro kvs'
        induction kvs' with
        | nil => intro _; simp [jBM, jdumpsMems]
        | cons kv t ihl =>
          obtain ⟨k, v⟩ := kv
          intro hmem
          have hx : jB v ≤ (jdumpsChars v).length :=
            ih (sizeOf v) (hmem (k, v) (List.mem_cons_self _ _)) v le_rfl
          cases t with
          | nil =>
            rw [show jdumpsMems [(k, v)]
                = dquote :: (escChars k.data ++ dquote :: ':' :: ' ' :: jdumpsChars v)
                from rfl]
            rw [show jBM [(k, v)] = 1 + max (jB v) 0 from rfl]
            simp only [List.length_cons, List.length_append]
            omega
          | cons kv2 ys =>
            have ht := ihl (fun z hz => hmem z (List.mem_cons_of_mem _ hz))
            rw [show jBM ((k, v) :: kv2 :: ys) = 1 + max (jB v) (jBM (kv2 :: ys)) from rfl]
            rw [show jdumpsMems ((k, v) :: kv2 :: ys)
                = dquote :: (escChars k.data ++ dquote :: ':' :: ' ' :: jdumpsChars v)
                  ++ ',' :: ' ' :: jdumpsMems (kv2 :: ys) from rfl]
            simp only [List.length_append, List.length_cons]
            omega
      have hstep := hM kvs hmemlt
      rw [show jB (Json.obj kvs) = 1 + jBM kvs from rfl]
      rw [show jdumpsChars (.obj kvs) = lbrace :: (jdumpsMems kvs ++ [rbrace]) from rfl]
      simp only [List.length_cons, List.length_append, List.length_singleton]
      omega

theorem jloads_dumps (m : Json) : jloads (jdumpsChars m) = some m := by
  unfold jloads
  have hB : jB m ≤ (jdumpsChars m).length + 1 := by
    have := jB_le_dumpsLen (sizeOf m) m le_rfl
    omega
  have h := parseV_dumps (sizeOf m) m le_rfl ((jdumpsChars m).length + 1) []
    hB (by simp [delimOk])
  rw [List.append_nil] at h
  rw [h]
  simp [skipWs]

/-- C7: framing round trip — writing any JSON message with `write_message`
(Content-Length header, blank-line separator, UTF-8 body) and decoding the
produced bytes with `read_message` yields the original message with the
stream fully consumed, and the declared Content-Length is exactly the
body's UTF-8 byte length. -/
theorem write_read_roundtrip (m : Json) :
    read_message (write_message m) = some (m, [])
    ∧ write_message m
      = "Content-Length: ".data
        ++ natToDigits (utf8LenChars (jdumpsChars m))
        ++ '\r' :: '\n' :: '\r' :: '\n' :: jdumpsChars m := by
  refine ⟨?_, rfl⟩
  have hD : ∀ c ∈ natToDigits (utf8LenChars (jdumpsChars m)), isDigitChar c = true :=
    natToDigits_all_digits _
  have hDne : natToDigits (utf8LenChars (jdumpsChars m)) ≠ [] := natToDigits_ne_nil _
  have hpos : 0 < utf8LenChars (jdumpsChars m) :=
    utf8LenChars_pos _ (jdumpsChars_ne_nil m)
  unfold read_message write_message
  rw [show "Content-Length: ".data
        ++ natToDigits (utf8LenChars (jdumpsChars m))
        ++ '\r' :: '\n' :: '\r' :: '\n' :: jdumpsChars m
      = "Content-Length: ".data
        ++ (natToDigits (utf8LenChars (jdumpsChars m))
            ++ '\r' :: '\n' :: '\r' :: '\n' :: jdumpsChars m) from by simp]
  rw [readHeadersGo_frame _ _ hDne hD]
  have htb := takeBytes_exact (jdumpsChars m) []
  rw [List.append_nil] at htb
  simp only [show List.lookup ("content-length".data)
        [("content-length".data, natToDigits (utf8LenChars (jdumpsChars m)))]
      = some (natToDigits (utf8LenChars (jdumpsChars m))) from by
    simp [List.lookup]]
  simp only [pyIntParse_digits _ hDne hD, digitsVal_natToDigits]
  rw [if_neg (show ¬((utf8LenChars (jdumpsChars m) : Int)) = 0 from by omega)]
  rw [if_neg (show ¬((utf8LenChars (jdumpsChars m) : Int)) < 0 from by omega)]
  rw [show ((utf8LenChars (jdumpsChars m) : Int)).toNat
      = utf8LenChars (jdumpsChars m) from by omega]
  rw [htb]
  simp only [jloads_dumps]
